import Mathlib

/-!
A shallow embedding of the backup/restore and database-lifecycle subsystem of
the debit-manager mobile app, together with proofs of its key behavioural
properties: database path resolution, snapshot creation, upload sink
priority, remount debouncing, backup filename timestamp formatting, and the
staged restore flow with pre-restore snapshotting and rollback.

The filesystem is modelled as a finite association list from paths to
abstract file contents.  Stateful pipelines additionally record a history of
the filesystem mutations they perform, so that ordering properties (such as
"the canonical file is never overwritten before a replacement candidate
exists on disk") can be stated over the recorded intermediate states.
External effects that this subsystem merely invokes (the SQLite checkpoint
and handle-close helpers) are passed in as an abstract state transformer,
and fallible filesystem calls are driven by explicit success oracles.
-/

namespace DebitManager

/-! ## Fixed filesystem layout constants (from utils/backupV2.ts) -/

abbrev Path := String

abbrev Content := Nat

def SQLITE_DIR : String := "SQLite/"

def BACKUP_DIR : String := "backups/"

def META_FILE : String := "backup_meta.json"

def DB_CANDIDATES : List String := ["debitmanager.db", "debitmanager"]

def canonicalPath : Path := SQLITE_DIR ++ "debitmanager.db"

def barePath : Path := SQLITE_DIR ++ "debitmanager"

/-! ## String helpers modelling the JS `endsWith` and `startsWith` checks -/

/-- Models the JavaScript `s.endsWith(post)` test. -/
def strEnds (s post : String) : Bool := post.data.isSuffixOf s.data

/-- Models the JavaScript `s.startsWith(p)` test. -/
def strStarts (s p : String) : Bool := p.data.isPrefixOf s.data

/-! ## Directory-state model of the path resolver

`resolveDatabasePath` (utils/backupV2.ts, lines 51-73) probes a fixed,
ordered candidate list with `getInfoAsync` (requiring a regular,
non-directory file) and falls back to a directory listing filtered by name
prefix, with no file-type check in the fallback.  The directory is modelled
as an ordered listing of `(name, isDirectory)` entries. -/

structure DirState where
  entries : List (String × Bool)
deriving DecidableEq

/-- A name exists in the directory as a regular (non-directory) file: this is
the `info.exists && !info.isDirectory` probe of the source. -/
def DirState.regular (d : DirState) (name : String) : Bool :=
  match d.entries.find? (fun e => e.1 == name) with
  | some e => !e.2
  | none => false

/-- The raw name listing, as returned by `readDirectoryAsync`. -/
def DirState.names (d : DirState) : List String := d.entries.map (·.1)

/-- Embedding of `resolveDatabasePath` over a directory state: probe the
fixed candidates in order, then fall back to the first listing entry whose
name starts with the database name prefix; `none` models the thrown
"Database file not found" error. -/
def resolveDatabasePathDir (d : DirState) : Option Path :=
  match DB_CANDIDATES.find? (fun n => d.regular n) with
  | some n => some (SQLITE_DIR ++ n)
  | none =>
    match d.names.find? (fun f => strStarts f "debitmanager") with
    | some m => some (SQLITE_DIR ++ m)
    | none => none

/-! ## Remount coordinator model (database/db.native.ts, lines 301-363)

`refreshSQLiteProvider` debounces on a module-level timestamp and invokes
the registered provider-remount callback on each accepted call.  The state
records the last accepted time, whether a callback is registered, and how
many times the callback has been invoked. -/

structure RemountState where
  lastRefresh : Nat
  hasCallback : Bool
  invocations : Nat
deriving DecidableEq

/-- Embedding of `refreshSQLiteProvider`: a call at time `now` within 1000ms
of the previous accepted call is dropped and reported `false`; otherwise the
accepted-time is updated and the remount callback (when registered) is
invoked once, reporting `true`. -/
def refreshSQLiteProvider (now : Nat) (st : RemountState) : Bool × RemountState :=
  if now - st.lastRefresh < 1000 then
    (false, st)
  else
    let st1 : RemountState := { st with lastRefresh := now }
    let st2 : RemountState :=
      if st1.hasCallback then { st1 with invocations := st1.invocations + 1 } else st1
    (true, st2)

/-! ## Timestamp formatting (utils/backupV2.ts, lines 75-94)

JavaScript number-to-string conversion of a natural number renders its
decimal digits; `natToDecimal` models it with fuel-based structural
recursion so all evaluations reduce definitionally. -/

def natToDecimalAux : Nat → Nat → List Char
  | 0, _ => []
  | fuel + 1, n =>
    if n < 10 then [Nat.digitChar n]
    else natToDecimalAux fuel (n / 10) ++ [Nat.digitChar (n % 10)]

/-- Decimal rendering of a natural number, as JavaScript `String(n)`. -/
def natToDecimal (n : Nat) : String := ⟨natToDecimalAux (n + 1) n⟩

/-- Models `String(n).padStart(2, "0")`. -/
def padTwo (n : Nat) : String :=
  let s := natToDecimal n
  if s.length < 2 then "0" ++ s else s

/-- The local wall-clock fields read off a JS `Date`: `getFullYear`,
`getMonth` (0-based), `getDate`, `getHours`, `getMinutes`, `getSeconds` and
`getTimezoneOffset` (minutes west of UTC, so negated before use). -/
structure JsDate where
  fullYear : Nat
  month0 : Nat
  date : Nat
  hours : Nat
  minutes : Nat
  seconds : Nat
  tzOffsetMin : Int
deriving DecidableEq

/-- Embedding of the `timestamp()` helper: local wall-clock time with
two-digit zero-padded fields, `T` separator, dashes instead of colons, and a
colon-free signed UTC offset. -/
def timestampOf (d : JsDate) : String :=
  let tzOffsetMinutes : Int := -d.tzOffsetMin
  let tzSign : String := if 0 ≤ tzOffsetMinutes then "+" else "-"
  let tzHours := padTwo (tzOffsetMinutes.natAbs / 60)
  let tzMins := padTwo (tzOffsetMinutes.natAbs % 60)
  natToDecimal d.fullYear ++ "-" ++ padTwo (d.month0 + 1) ++ "-" ++ padTwo d.date ++ "T" ++
    padTwo d.hours ++ "-" ++ padTwo d.minutes ++ "-" ++ padTwo d.seconds ++
    tzSign ++ tzHours ++ tzMins

/-- Decidable check that a string matches the exact shape
`YYYY-MM-DDTHH-mm-ss±HHMM`: 24 characters, digits in the date/time/offset
positions, literal separators, and a leading `+` or `-` on the offset. -/
def matchesTsPattern (s : String) : Bool :=
  match s.data with
  | [y1, y2, y3, y4, d1, m1, m2, d2, a1, a2, tsep, h1, h2, d3, n1, n2, d4, e1, e2,
     sg, o1, o2, o3, o4] =>
    (y1.isDigit && y2.isDigit && y3.isDigit && y4.isDigit &&
     m1.isDigit && m2.isDigit && a1.isDigit && a2.isDigit &&
     h1.isDigit && h2.isDigit && n1.isDigit && n2.isDigit &&
     e1.isDigit && e2.isDigit &&
     o1.isDigit && o2.isDigit && o3.isDigit && o4.isDigit) &&
    (d1 == '-' && d2 == '-' && tsep == 'T' && d3 == '-' && d4 == '-') &&
    (sg == '+' || sg == '-')
  | _ => false

/-! ## Filesystem model for the backup and restore pipelines -/

/-- A finite filesystem: an association list from full paths to abstract
file contents (most recent binding first).  All entries are regular files;
directory creation (`makeDirectoryAsync`) has no observable effect in this
model. -/
structure FS where
  files : List (Path × Content)
deriving DecidableEq

def FS.get (fs : FS) (p : Path) : Option Content :=
  (fs.files.find? (fun e => e.1 == p)).map (·.2)

def FS.fileExists (fs : FS) (p : Path) : Bool := (fs.get p).isSome

/-- Write (create or overwrite) a file. -/
def FS.set (fs : FS) (p : Path) (c : Content) : FS :=
  ⟨(p, c) :: fs.files.filter (fun e => e.1 != p)⟩

/-- Delete a file (idempotent: no-op when absent). -/
def FS.del (fs : FS) (p : Path) : FS :=
  ⟨fs.files.filter (fun e => e.1 != p)⟩

/-- The names visible when listing the SQLite storage directory. -/
def FS.listing (fs : FS) : List String :=
  fs.files.filterMap
    (fun e => if strStarts e.1 SQLITE_DIR then some (e.1.drop SQLITE_DIR.length) else none)

/-- Embedding of `resolveDatabasePath` over the filesystem model (no
directories exist in this model, so the regular-file requirement of the
candidate probe is plain existence). -/
def resolveDatabasePath (fs : FS) : Option Path :=
  match DB_CANDIDATES.find? (fun n => fs.fileExists (SQLITE_DIR ++ n)) with
  | some n => some (SQLITE_DIR ++ n)
  | none =>
    match fs.listing.find? (fun f => strStarts f "debitmanager") with
    | some m => some (SQLITE_DIR ++ m)
    | none => none

/-- One observable filesystem mutation performed by the subsystem. -/
inductive FsEv where
  | write (p : Path) (c : Content)
  | del (p : Path)
deriving DecidableEq

/-- A traced filesystem: current state plus the history of mutations, each
paired with the state immediately after it. -/
structure Tr where
  fs : FS
  hist : List (FsEv × FS)
deriving DecidableEq

def Tr.write (t : Tr) (p : Path) (c : Content) : Tr :=
  ⟨t.fs.set p c, t.hist ++ [(FsEv.write p c, t.fs.set p c)]⟩

def Tr.del (t : Tr) (p : Path) : Tr :=
  ⟨t.fs.del p, t.hist ++ [(FsEv.del p, t.fs.del p)]⟩

/-- Apply an external state transformer (the abstract checkpoint/close
helper); its effects are not FileSystem calls of this subsystem and are not
recorded in the history. -/
def Tr.chk (t : Tr) (f : FS → FS) : Tr := ⟨f t.fs, t.hist⟩

/-! ## Snapshot engine (`backupDatabase`, utils/backupV2.ts lines 96-182) -/

/-- Pre-checkpoint source adjustment: if the resolved path lacks the `.db`
suffix but a canonical-suffixed sibling exists, prefer the sibling
(lines 99-106). -/
def backupSourcePick (fs : FS) (p : Path) : Path :=
  if strEnds p ".db" then p
  else if fs.fileExists (p ++ ".db") then p ++ ".db" else p

/-- Post-checkpoint bare-file migration copy: if the source still lacks the
`.db` suffix, best-effort copy it to the canonical-suffixed sibling and back
that up instead; failure is swallowed (lines 130-141).  `bareOk` is the
success oracle for the copy. -/
def bareCopyStep (bareOk : Bool) (t : Tr) (p : Path) : Path × Tr :=
  if strEnds p ".db" then (p, t)
  else
    match t.fs.get p with
    | some c => if bareOk then (p ++ ".db", t.write (p ++ ".db") c) else (p, t)
    | none => (p, t)

/-- Best-effort sidecar copy (lines 150-175): if the source sidecar exists it
is copied next to the artifact; failure (oracle `ok` false) is swallowed. -/
def sidecarStep (ok : Bool) (t : Tr) (srcSide destSide : Path) : Tr :=
  match t.fs.get srcSide with
  | some w => if ok then t.write destSide w else t
  | none => t

/-- Embedding of `backupDatabase`: resolve, prefer the canonical sibling,
checkpoint (abstract `chk`), migrate a bare source, copy the source to the
timestamped destination (oracle `destOk`; failure is fatal), then copy WAL
and SHM sidecars best-effort.  Returns the destination artifact path and the
final source path actually copied, or `none` for a thrown error. -/
def backupRun (chk : FS → FS) (ts : String) (bareOk destOk walOk shmOk : Bool)
    (t0 : Tr) : Tr × Option (Path × Path) :=
  match resolveDatabasePath t0.fs with
  | none => (t0, none)
  | some dbPath0 =>
    let dbPath1 := backupSourcePick t0.fs dbPath0
    let t1 := Tr.chk t0 chk
    let s2 := bareCopyStep bareOk t1 dbPath1
    let dest := BACKUP_DIR ++ ("debitmanager-" ++ (ts ++ ".db"))
    match s2.2.fs.get s2.1 with
    | none => (s2.2, none)
    | some c =>
      if destOk then
        let t3 := s2.2.write dest c
        let t4 := sidecarStep walOk t3 (s2.1 ++ "-wal") (dest ++ "-wal")
        let t5 := sidecarStep shmOk t4 (s2.1 ++ "-shm") (dest ++ "-shm")
        (t5, some (dest, s2.1))
      else (s2.2, none)

/-- `backupDatabase` with the final source path exposed: `none` models a
thrown error, `some (fs, dest, src)` a successful run returning artifact
path `dest` copied from final source `src`. -/
def backupDatabaseFull (chk : FS → FS) (ts : String) (bareOk destOk walOk shmOk : Bool)
    (fs : FS) : Option (FS × Path × Path) :=
  match backupRun chk ts bareOk destOk walOk shmOk ⟨fs, []⟩ with
  | (t, some r) => some (t.fs, r.1, r.2)
  | (_, none) => none

/-- Embedding of `backupDatabase` as seen by callers: final filesystem plus
the returned artifact uri. -/
def backupDatabase (chk : FS → FS) (ts : String) (bareOk destOk walOk shmOk : Bool)
    (fs : FS) : Option (FS × Path) :=
  (backupDatabaseFull chk ts bareOk destOk walOk shmOk fs).map (fun r => (r.1, r.2.1))

/-! ## Combined "backup now" sink chain (utils/backupV2.ts lines 296-321) -/

/-- The result record of `backupNow`. -/
structure BackupNowResult where
  uri : Path
  uploaded : Bool
  shared : Bool
  googleDrive : Bool
deriving DecidableEq

/-- How many times each sink was attempted during one `backupNow` call. -/
structure SinkTrace where
  gdAttempts : Nat
  genAttempts : Nat
  shareAttempts : Nat
deriving DecidableEq

/-- The sink chain of `backupNow`: Google Drive first (early return on
success with the other flags false), then the configured generic HTTP
endpoint, then the OS share sheet only if the generic upload did not
succeed.  Each oracle is the observed outcome of the corresponding sink. -/
def backupNowSinks (gdOk genOk shareOk : Bool) (uri : Path) :
    BackupNowResult × SinkTrace :=
  if gdOk then
    (⟨uri, false, false, true⟩, ⟨1, 0, 0⟩)
  else if genOk then
    (⟨uri, true, false, false⟩, ⟨1, 1, 0⟩)
  else
    (⟨uri, false, shareOk, false⟩, ⟨1, 1, 1⟩)

/-- Embedding of `backupNow`: run `backupDatabase` (errors propagate), record
the last-backup timestamp in the metadata file, then run the sink chain. -/
def backupNow (chk : FS → FS) (ts : String) (bareOk destOk walOk shmOk : Bool)
    (gdOk genOk shareOk : Bool) (metaC : Content) (fs : FS) :
    Option (FS × BackupNowResult × SinkTrace) :=
  match backupDatabase chk ts bareOk destOk walOk shmOk fs with
  | none => none
  | some (fs1, uri) =>
    let fs2 := fs1.set META_FILE metaC
    let rt := backupNowSinks gdOk genOk shareOk uri
    some (fs2, rt.1, rt.2)

/-! ## Restore engine (`handleRestoreBackup`, app backups screen, local-file
path, lines 208-384) -/

/-- Outcome of a restore call, as surfaced to the user. -/
inductive RestoreResult where
  | done
  | canceled
  | failedRolledBack
  | failedRollbackFailed
  | failedNoSnapshot
deriving DecidableEq

/-- A finished restore run: final traced filesystem, outcome, and the
resolved source/canonical paths (when resolution succeeded). -/
structure RestoreRun where
  t : Tr
  result : RestoreResult
  dbPath : Option Path
  canonical : Option Path
deriving DecidableEq

/-- Rollback from the pre-restore snapshot (lines 348-374): recompute the
canonical target, copy the snapshot to a `.rollback.tmp` sibling, then
atomically move it onto the target with a copy-then-delete fallback.
Returns whether the rollback succeeded. -/
def rollbackRun (rbCopyOk rbMoveOk rbFbOk : Bool) (snap : Path) (t : Tr) : Tr × Bool :=
  let target :=
    match resolveDatabasePath t.fs with
    | some cur => if strEnds cur ".db" then cur else cur ++ ".db"
    | none => SQLITE_DIR ++ "debitmanager.db"
  let tmp := target ++ ".rollback.tmp"
  match t.fs.get snap with
  | none => (t, false)
  | some sc =>
    if rbCopyOk then
      let t1 := t.write tmp sc
      if rbMoveOk then (((t1.write target sc).del tmp), true)
      else if rbFbOk then (((t1.write target sc).del tmp), true)
      else (t1, false)
    else (t, false)

/-- The catch handler of `handleRestoreBackup` (lines 345-383): roll back
from the pre-restore snapshot when one exists, else report plain failure
without touching the filesystem. -/
def catchPath (rbCopyOk rbMoveOk rbFbOk : Bool) (snap : Option Path) (t : Tr) :
    Tr × RestoreResult :=
  match snap with
  | none => (t, RestoreResult.failedNoSnapshot)
  | some sp =>
    let r := rollbackRun rbCopyOk rbMoveOk rbFbOk sp t
    (r.1, if r.2 then RestoreResult.failedRolledBack else RestoreResult.failedRollbackFailed)

/-- After the canonical replacement is in place: delete the legacy bare path
when it differs from the canonical path, then delete the canonical WAL/SHM
sidecars (lines 331-335); all deletes are idempotent and non-fatal. -/
def swapSuccessTail (dbPath canonical : Path) (t : Tr) : Tr × RestoreResult :=
  let ta := if canonical = dbPath then t else t.del dbPath
  let tb := (ta.del (canonical ++ "-wal")).del (canonical ++ "-shm")
  (tb, RestoreResult.done)

/-- Embedding of the local-file restore flow of `handleRestoreBackup`:
checkpoint, take a pre-restore snapshot via `backupDatabase` (failure is
swallowed), checkpoint and close the UI connection, resolve the active
database path (failure jumps to the catch handler), then stage the picked
file into a `.restore.tmp` sibling of the canonical path, move it onto the
canonical path (with copy-then-delete fallback), clean up the legacy bare
file and stale sidecars, or roll back on any staging/swap failure.
`picked = none` models a cancelled document picker. -/
def handleRestoreLocal (chk : FS → FS) (ts : String)
    (bareOk destOk walOk shmOk : Bool) (picked : Option Content)
    (stageOk moveOk fbOk delTmpOk : Bool) (rbCopyOk rbMoveOk rbFbOk : Bool)
    (fs0 : FS) : RestoreRun :=
  let t1 := Tr.chk ⟨fs0, []⟩ chk
  let br := backupRun chk ts bareOk destOk walOk shmOk t1
  let snap := br.2.map (·.1)
  let t3 := Tr.chk br.1 chk
  match resolveDatabasePath t3.fs with
  | none =>
    let cr := catchPath rbCopyOk rbMoveOk rbFbOk snap t3
    ⟨cr.1, cr.2, none, none⟩
  | some dbPath =>
    let canonical := if strEnds dbPath ".db" then dbPath else dbPath ++ ".db"
    match picked with
    | none => ⟨t3, RestoreResult.canceled, some dbPath, some canonical⟩
    | some c =>
      let temp := canonical ++ ".restore.tmp"
      if stageOk then
        let t4 := t3.write temp c
        if moveOk then
          let t5 := (t4.write canonical c).del temp
          let sr := swapSuccessTail dbPath canonical t5
          ⟨sr.1, sr.2, some dbPath, some canonical⟩
        else if fbOk then
          let t5 := t4.write canonical c
          if delTmpOk then
            let t6 := t5.del temp
            let sr := swapSuccessTail dbPath canonical t6
            ⟨sr.1, sr.2, some dbPath, some canonical⟩
          else
            let cr := catchPath rbCopyOk rbMoveOk rbFbOk snap t5
            ⟨cr.1, cr.2, some dbPath, some canonical⟩
        else
          let cr := catchPath rbCopyOk rbMoveOk rbFbOk snap t4
          ⟨cr.1, cr.2, some dbPath, some canonical⟩
      else
        let cr := catchPath rbCopyOk rbMoveOk rbFbOk snap t3
        ⟨cr.1, cr.2, some dbPath, some canonical⟩

/-- Invariant of the snapshot phase as seen from a restore that starts at
filesystem `fs0` with history `h0`: only backup-directory paths have been
written, each recorded intermediate state keeps the canonical file
unchanged, and every non-backup path still has its original content. -/
def SnapInv (fs0 : FS) (h0 : List (FsEv × FS)) (t : Tr) : Prop :=
  (∀ q : Path, (∀ x : String, q ≠ BACKUP_DIR ++ x) → t.fs.get q = fs0.get q) ∧
  (∃ hb, t.hist = h0 ++ hb ∧
    ∀ pr ∈ hb, (∃ x c, pr.1 = FsEv.write (BACKUP_DIR ++ x) c) ∧
      pr.2.get canonicalPath = fs0.get canonicalPath)

/-- Staging discipline of one recorded restore mutation: any write landing
on the canonical path carries bytes that are already present in a temporary
sibling (`.restore.tmp` from staging, or `.rollback.tmp` from rollback) at
that very state, and the canonical path is never the target of a delete. -/
def StagedP (pr : FsEv × FS) : Prop :=
  (∀ cw : Content, pr.1 = FsEv.write canonicalPath cw →
    pr.2.get (canonicalPath ++ ".restore.tmp") = some cw ∨
    pr.2.get (canonicalPath ++ ".rollback.tmp") = some cw) ∧
  pr.1 ≠ FsEv.del canonicalPath

/-- Discipline of the legacy bare file during restore: whenever the bare
path is deleted, the canonical replacement (holding the restored bytes `c`)
is already in place at that state. -/
def BareDelQ (c : Content) (pr : FsEv × FS) : Prop :=
  pr.1 = FsEv.del barePath → pr.2.get (barePath ++ ".db") = some c

/-! ## String infrastructure lemmas -/

theorem str_ext : ∀ {a b : String}, a.data = b.data → a = b
  | ⟨_⟩, ⟨_⟩, rfl => rfl

theorem data_append (a b : String) : (a ++ b).data = a.data ++ b.data := rfl

theorem str_append_assoc (a b c : String) : (a ++ b) ++ c = a ++ (b ++ c) :=
  str_ext (by simp only [data_append, List.append_assoc])

theorem str_append_cancel {p a b : String} (h : p ++ a = p ++ b) : a = b := by
  have h2 := congrArg String.data h
  simp only [data_append] at h2
  exact str_ext (List.append_cancel_left h2)

theorem backup_ne_sqlite (x y : String) : BACKUP_DIR ++ x ≠ SQLITE_DIR ++ y := by
  intro h
  have h2 := congrArg String.data h
  simp only [data_append] at h2
  have hb : BACKUP_DIR.data = 'b' :: "ackups/".data := rfl
  have hs : SQLITE_DIR.data = 'S' :: "QLite/".data := rfl
  rw [hb, hs, List.cons_append, List.cons_append] at h2
  injection h2 with h3 _
  exact absurd h3 (by decide)

theorem sqlite_ne_backup (x y : String) : SQLITE_DIR ++ x ≠ BACKUP_DIR ++ y :=
  fun h => backup_ne_sqlite y x h.symm

theorem str_append_ne_self (p s : String) (hs : s.data ≠ []) : p ++ s ≠ p := by
  intro h
  have h2 := congrArg (fun t : String => t.data.length) h
  simp only [data_append, List.length_append] at h2
  have h3 : s.data.length = 0 := by omega
  exact hs (List.length_eq_zero.mp h3)

theorem str_self_ne_append (p s : String) (hs : s.data ≠ []) : p ≠ p ++ s :=
  fun h => str_append_ne_self p s hs h.symm

/-! ## Association-list and filesystem lemmas -/

theorem find?_key_filter (l : List (Path × Content)) (p q : Path) (h : q ≠ p) :
    (l.filter (fun e => e.1 != p)).find? (fun e => e.1 == q) =
      l.find? (fun e => e.1 == q) := by
  induction l with
  | nil => rfl
  | cons a l ih =>
    by_cases hap : a.1 = p
    · have haq : (a.1 == q) = false := by simp [hap, Ne.symm h]
      have hf : (a.1 != p) = false := by simp [hap]
      simp [List.filter_cons, List.find?_cons, hf, haq, ih]
    · have hf : (a.1 != p) = true := by simp [bne_iff_ne, hap]
      by_cases haq : a.1 = q
      · have hq : (a.1 == q) = true := by simp [haq]
        simp [List.filter_cons, List.find?_cons, hf, hq]
      · have hq : (a.1 == q) = false := by simp [haq]
        simp [List.filter_cons, List.find?_cons, hf, hq, ih]

theorem find?_key_filter_self (l : List (Path × Content)) (p : Path) :
    (l.filter (fun e => e.1 != p)).find? (fun e => e.1 == p) = none := by
  induction l with
  | nil => rfl
  | cons a l ih =>
    by_cases hap : a.1 = p
    · have hf : (a.1 != p) = false := by simp [hap]
      simp [List.filter_cons, hf, ih]
    · have hf : (a.1 != p) = true := by simp [bne_iff_ne, hap]
      have hq : (a.1 == p) = false := by simp [hap]
      simp [List.filter_cons, List.find?_cons, hf, hq, ih]

theorem fs_get_set_self (fs : FS) (p : Path) (c : Content) :
    (fs.set p c).get p = some c := by
  unfold FS.get FS.set
  simp [List.find?_cons]

theorem fs_get_set_ne (fs : FS) (p q : Path) (c : Content) (h : q ≠ p) :
    (fs.set p c).get q = fs.get q := by
  unfold FS.get FS.set
  have hq : (p == q) = false := by simp [Ne.symm h]
  simp only [List.find?_cons, hq]
  rw [find?_key_filter _ _ _ h]

theorem fs_get_del_ne (fs : FS) (p q : Path) (h : q ≠ p) :
    (fs.del p).get q = fs.get q := by
  unfold FS.get FS.del
  rw [find?_key_filter _ _ _ h]

theorem fs_get_del_self (fs : FS) (p : Path) : (fs.del p).get p = none := by
  unfold FS.get FS.del
  rw [find?_key_filter_self]
  rfl

/-! ## Resolver lemmas over the filesystem model -/

theorem resolve_shape {fs : FS} {p : Path} (h : resolveDatabasePath fs = some p) :
    ∃ n, p = SQLITE_DIR ++ n := by
  unfold resolveDatabasePath at h
  cases hc : DB_CANDIDATES.find? (fun n => fs.fileExists (SQLITE_DIR ++ n)) with
  | some n => rw [hc] at h; exact ⟨n, (Option.some.inj h).symm⟩
  | none =>
    rw [hc] at h
    cases hl : fs.listing.find? (fun f => strStarts f "debitmanager") with
    | some m => rw [hl] at h; exact ⟨m, (Option.some.inj h).symm⟩
    | none => rw [hl] at h; cases h

theorem resolve_of_canonical {fs : FS} {v : Content} (h : fs.get canonicalPath = some v) :
    resolveDatabasePath fs = some canonicalPath := by
  have hex : fs.fileExists (SQLITE_DIR ++ "debitmanager.db") = true := by
    have hc : SQLITE_DIR ++ "debitmanager.db" = canonicalPath := rfl
    simp [FS.fileExists, hc, h]
  unfold resolveDatabasePath DB_CANDIDATES
  simp [List.find?_cons, hex, canonicalPath]

/-! ## C3: resolver prefers the canonical candidate -/

/-- C3: for every directory state in which both `debitmanager.db` and the
bare `debitmanager` exist as regular (non-directory) files,
`resolveDatabasePath` returns the canonical `.db` path, because the fixed
candidate list is probed in order with the canonical name first. -/
theorem resolver_prefers_canonical (d : DirState)
    (h1 : d.regular "debitmanager.db" = true)
    (h2 : d.regular "debitmanager" = true) :
    resolveDatabasePathDir d = some (SQLITE_DIR ++ "debitmanager.db") := by
  unfold resolveDatabasePathDir DB_CANDIDATES
  simp [List.find?_cons, h1]

theorem resolver_prefers_canonical_witness :
    resolveDatabasePathDir ⟨[("debitmanager.db", false), ("debitmanager", false)]⟩ =
      some (SQLITE_DIR ++ "debitmanager.db") :=
  resolver_prefers_canonical ⟨[("debitmanager.db", false), ("debitmanager", false)]⟩
    (by decide) (by decide)

/-! ## C7 and C10: resolver failure characterization and untyped fallback -/

theorem resolver_fallback_eq (d : DirState) (m : String)
    (h1 : d.regular "debitmanager.db" = false)
    (h2 : d.regular "debitmanager" = false)
    (hm : d.names.find? (fun f => strStarts f "debitmanager") = some m) :
    resolveDatabasePathDir d = some (SQLITE_DIR ++ m) := by
  unfold resolveDatabasePathDir DB_CANDIDATES
  simp [List.find?_cons, h1, h2, hm]

/-- C7: `resolveDatabasePath` fails with its NotFound error exactly when
neither fixed candidate exists as a regular file and no listing entry starts
with the database name prefix; and when the candidates are absent but a
prefix-matching entry exists, the listing fallback returns that entry
instead of failing. -/
theorem resolver_notfound_characterization (d : DirState) :
    (resolveDatabasePathDir d = none ↔
      (d.regular "debitmanager.db" = false ∧ d.regular "debitmanager" = false ∧
        ∀ f ∈ d.names, strStarts f "debitmanager" = false)) ∧
    (∀ m, d.regular "debitmanager.db" = false → d.regular "debitmanager" = false →
      d.names.find? (fun f => strStarts f "debitmanager") = some m →
      resolveDatabasePathDir d = some (SQLITE_DIR ++ m)) := by
  constructor
  · constructor
    · intro h
      cases h1 : d.regular "debitmanager.db" with
      | true =>
        have hr : resolveDatabasePathDir d = some (SQLITE_DIR ++ "debitmanager.db") := by
          unfold resolveDatabasePathDir DB_CANDIDATES
          simp [List.find?_cons, h1]
        rw [hr] at h
        cases h
      | false =>
        cases h2 : d.regular "debitmanager" with
        | true =>
          have hr : resolveDatabasePathDir d = some (SQLITE_DIR ++ "debitmanager") := by
            unfold resolveDatabasePathDir DB_CANDIDATES
            simp [List.find?_cons, h1, h2]
          rw [hr] at h
          cases h
        | false =>
          refine ⟨rfl, rfl, ?_⟩
          cases hm : d.names.find? (fun f => strStarts f "debitmanager") with
          | some m => rw [resolver_fallback_eq d m h1 h2 hm] at h; cases h
          | none =>
            intro f hf
            have := List.find?_eq_none.mp hm f hf
            simpa using this
    · rintro ⟨h1, h2, hall⟩
      have hm : d.names.find? (fun f => strStarts f "debitmanager") = none :=
        List.find?_eq_none.mpr (fun f hf => by simp [hall f hf])
      unfold resolveDatabasePathDir DB_CANDIDATES
      simp [List.find?_cons, h1, h2, hm]
  · exact fun m => resolver_fallback_eq d m

theorem resolver_notfound_characterization_witness :
    resolveDatabasePathDir ⟨[("debitmanager-old", false)]⟩ =
      some (SQLITE_DIR ++ "debitmanager-old") :=
  (resolver_notfound_characterization ⟨[("debitmanager-old", false)]⟩).2
    "debitmanager-old" (by decide) (by decide) (by decide)

/-- C10: the listing fallback returns the first prefix-matching entry with
no regular-file or directory check, so a directory state holding only the
`debitmanager.db-wal` sidecar resolves to the sidecar path, and one holding
a directory named `debitmanager` resolves to that directory path, unlike
the fixed-candidate probe which requires a regular non-directory file. -/
theorem resolver_fallback_untyped :
    (∀ (d : DirState) (m : String),
      d.regular "debitmanager.db" = false → d.regular "debitmanager" = false →
      d.names.find? (fun f => strStarts f "debitmanager") = some m →
      resolveDatabasePathDir d = some (SQLITE_DIR ++ m)) ∧
    resolveDatabasePathDir ⟨[("debitmanager.db-wal", false)]⟩ =
      some (SQLITE_DIR ++ "debitmanager.db-wal") ∧
    resolveDatabasePathDir ⟨[("debitmanager", true)]⟩ =
      some (SQLITE_DIR ++ "debitmanager") :=
  ⟨fun d m => resolver_fallback_eq d m, by decide, by decide⟩

theorem resolver_fallback_untyped_witness :
    resolveDatabasePathDir ⟨[("debitmanager.db-shm", false)]⟩ =
      some (SQLITE_DIR ++ "debitmanager.db-shm") :=
  resolver_fallback_untyped.1 ⟨[("debitmanager.db-shm", false)]⟩
    "debitmanager.db-shm" (by decide) (by decide) (by decide)

/-! ## C5: remount debounce -/

/-- C5: with a callback registered, two remount requests within the one
second debounce window invoke the callback exactly once, the second call
returning `false`; a third request issued once the window has elapsed since
the previous accepted call invokes the callback a second time. -/
theorem remount_debounce (st0 : RemountState) (t1 t2 t3 : Nat)
    (hcb : st0.hasCallback = true)
    (h1 : 1000 ≤ t1 - st0.lastRefresh)
    (h12 : t1 ≤ t2) (h2 : t2 - t1 < 1000)
    (h3 : 1000 ≤ t3 - t1) :
    (refreshSQLiteProvider t1 st0).1 = true ∧
    (refreshSQLiteProvider t2 (refreshSQLiteProvider t1 st0).2).1 = false ∧
    (refreshSQLiteProvider t2 (refreshSQLiteProvider t1 st0).2).2.invocations =
      st0.invocations + 1 ∧
    (refreshSQLiteProvider t3
      (refreshSQLiteProvider t2 (refreshSQLiteProvider t1 st0).2).2).1 = true ∧
    (refreshSQLiteProvider t3
      (refreshSQLiteProvider t2 (refreshSQLiteProvider t1 st0).2).2).2.invocations =
      st0.invocations + 2 := by
  have e1 : refreshSQLiteProvider t1 st0 =
      (true, { st0 with lastRefresh := t1, invocations := st0.invocations + 1 }) := by
    unfold refreshSQLiteProvider
    rw [if_neg (by omega)]
    simp [hcb]
  rw [e1]
  have e2 : refreshSQLiteProvider t2
      ({ st0 with lastRefresh := t1, invocations := st0.invocations + 1 }) =
      (false, { st0 with lastRefresh := t1, invocations := st0.invocations + 1 }) := by
    unfold refreshSQLiteProvider
    rw [if_pos (by simp; omega)]
  rw [e2]
  have e3 : refreshSQLiteProvider t3
      ({ st0 with lastRefresh := t1, invocations := st0.invocations + 1 }) =
      (true, { st0 with lastRefresh := t3, invocations := st0.invocations + 2 }) := by
    unfold refreshSQLiteProvider
    rw [if_neg (by simp; omega)]
    simp [hcb]
  rw [e3]
  simp

theorem remount_debounce_witness :
    (refreshSQLiteProvider 5000 ⟨0, true, 0⟩).1 = true ∧
    (refreshSQLiteProvider 5500 (refreshSQLiteProvider 5000 ⟨0, true, 0⟩).2).1 = false ∧
    (refreshSQLiteProvider 5500
      (refreshSQLiteProvider 5000 ⟨0, true, 0⟩).2).2.invocations = 0 + 1 ∧
    (refreshSQLiteProvider 6200 (refreshSQLiteProvider 5500
      (refreshSQLiteProvider 5000 ⟨0, true, 0⟩).2).2).1 = true ∧
    (refreshSQLiteProvider 6200 (refreshSQLiteProvider 5500
      (refreshSQLiteProvider 5000 ⟨0, true, 0⟩).2).2).2.invocations = 0 + 2 :=
  remount_debounce ⟨0, true, 0⟩ 5000 5500 6200 rfl (by decide) (by decide) (by decide)
    (by decide)

/-! ## C8: backupNow sink priority -/

/-- C8: `backupNow` attempts the sinks in priority order cloud drive, then
configured generic HTTP endpoint, then OS share sheet; a later sink is
attempted only when every earlier one failed or declined, a successful
cloud upload returns immediately with the generic-upload and shared flags
false, and the share sheet is attempted exactly when the generic upload did
not succeed. -/
theorem backupNow_sink_priority
    (chk : FS → FS) (ts : String) (bareOk destOk walOk shmOk gdOk genOk shareOk : Bool)
    (metaC : Content) (fs fs2 : FS) (r : BackupNowResult) (tr : SinkTrace)
    (hrun : backupNow chk ts bareOk destOk walOk shmOk gdOk genOk shareOk metaC fs =
      some (fs2, r, tr)) :
    tr.gdAttempts = 1 ∧
    tr.genAttempts = (if gdOk then 0 else 1) ∧
    tr.shareAttempts = (if gdOk = false ∧ genOk = false then 1 else 0) ∧
    r.googleDrive = gdOk ∧
    (gdOk = true → r.uploaded = false ∧ r.shared = false) ∧
    (gdOk = false → r.uploaded = genOk) ∧
    (gdOk = false → genOk = false → r.shared = shareOk) := by
  unfold backupNow at hrun
  cases hb : backupDatabase chk ts bareOk destOk walOk shmOk fs with
  | none => rw [hb] at hrun; cases hrun
  | some pr =>
    rw [hb] at hrun
    obtain ⟨fs1, uri⟩ := pr
    cases gdOk <;> cases genOk <;> cases shareOk <;>
      simp only [backupNowSinks, if_true, if_false, Bool.false_eq_true, ite_true, ite_false,
        Option.some.injEq, Prod.mk.injEq] at hrun <;>
      obtain ⟨h1, h2, h3⟩ := hrun <;>
      simp [← h2, ← h3]

theorem backupNow_sink_priority_witness :
    backupNow id "TS" true true true true true false false 0 ⟨[(canonicalPath, 5)]⟩ =
      some (⟨[(META_FILE, 0), (BACKUP_DIR ++ ("debitmanager-" ++ ("TS" ++ ".db")), 5),
          (canonicalPath, 5)]⟩,
        ⟨BACKUP_DIR ++ ("debitmanager-" ++ ("TS" ++ ".db")), false, false, true⟩,
        ⟨1, 0, 0⟩) ∧
    (⟨1, 0, 0⟩ : SinkTrace).gdAttempts = 1 ∧
    (⟨BACKUP_DIR ++ ("debitmanager-" ++ ("TS" ++ ".db")), false, false,
      true⟩ : BackupNowResult).googleDrive = true :=
  have hrun : backupNow id "TS" true true true true true false false 0
      ⟨[(canonicalPath, 5)]⟩ =
      some (⟨[(META_FILE, 0), (BACKUP_DIR ++ ("debitmanager-" ++ ("TS" ++ ".db")), 5),
          (canonicalPath, 5)]⟩,
        ⟨BACKUP_DIR ++ ("debitmanager-" ++ ("TS" ++ ".db")), false, false, true⟩,
        ⟨1, 0, 0⟩) := by decide
  ⟨hrun, (backupNow_sink_priority _ _ _ _ _ _ _ _ _ _ _ _ _ _ hrun).1,
    (backupNow_sink_priority _ _ _ _ _ _ _ _ _ _ _ _ _ _ hrun).2.2.2.1⟩

/-! ## C6: timestamp format of the backup filename -/

theorem str_length_data (s : String) : s.length = s.data.length := rfl

theorem digitChar_isDigit {n : Nat} (h : n < 10) : (Nat.digitChar n).isDigit = true := by
  interval_cases n <;> decide

theorem natToDecimalAux_succ (g n : Nat) :
    natToDecimalAux (g + 1) n =
      if n < 10 then [Nat.digitChar n]
      else natToDecimalAux g (n / 10) ++ [Nat.digitChar (n % 10)] := rfl

theorem natToDecimalAux_small (f n : Nat) (hf : 0 < f) (h : n < 10) :
    natToDecimalAux f n = [Nat.digitChar n] := by
  obtain ⟨g, rfl⟩ : ∃ g, f = g + 1 := ⟨f - 1, by omega⟩
  rw [natToDecimalAux_succ, if_pos h]

theorem natToDecimalAux_step (f n : Nat) (hf : 0 < f) (h : 10 ≤ n) :
    natToDecimalAux f n = natToDecimalAux (f - 1) (n / 10) ++ [Nat.digitChar (n % 10)] := by
  obtain ⟨g, rfl⟩ : ∃ g, f = g + 1 := ⟨f - 1, by omega⟩
  rw [natToDecimalAux_succ, if_neg (by omega), Nat.add_sub_cancel]

theorem natToDecimal_two (n : Nat) (h1 : 10 ≤ n) (h2 : n < 100) :
    (natToDecimal n).data = [Nat.digitChar (n / 10), Nat.digitChar (n % 10)] := by
  have hq : n / 10 < 10 := by rw [Nat.div_lt_iff_lt_mul (by norm_num)]; omega
  show natToDecimalAux (n + 1) n = _
  rw [natToDecimalAux_step _ _ (by omega) h1, natToDecimalAux_small _ _ (by omega) hq]
  rfl

theorem natToDecimal_four (y : Nat) (h1 : 1000 ≤ y) (h2 : y < 10000) :
    ∃ a b c d : Char, (natToDecimal y).data = [a, b, c, d] ∧
      a.isDigit ∧ b.isDigit ∧ c.isDigit ∧ d.isDigit := by
  have d1 : 100 ≤ y / 10 := by rw [Nat.le_div_iff_mul_le (by norm_num)]; omega
  have d2 : y / 10 < 1000 := by rw [Nat.div_lt_iff_lt_mul (by norm_num)]; omega
  have e1 : 10 ≤ y / 10 / 10 := by rw [Nat.le_div_iff_mul_le (by norm_num)]; omega
  have e2 : y / 10 / 10 < 100 := by rw [Nat.div_lt_iff_lt_mul (by norm_num)]; omega
  have f2 : y / 10 / 10 / 10 < 10 := by rw [Nat.div_lt_iff_lt_mul (by norm_num)]; omega
  have hy : (natToDecimal y).data =
      [Nat.digitChar (y / 10 / 10 / 10), Nat.digitChar (y / 10 / 10 % 10),
        Nat.digitChar (y / 10 % 10), Nat.digitChar (y % 10)] := by
    show natToDecimalAux (y + 1) y = _
    rw [natToDecimalAux_step _ _ (by omega) (by omega),
      natToDecimalAux_step _ _ (by omega) (by omega),
      natToDecimalAux_step _ _ (by omega) (by omega),
      natToDecimalAux_small _ _ (by omega) f2]
    simp
  exact ⟨_, _, _, _, hy, digitChar_isDigit f2,
    digitChar_isDigit (Nat.mod_lt _ (by norm_num)),
    digitChar_isDigit (Nat.mod_lt _ (by norm_num)),
    digitChar_isDigit (Nat.mod_lt _ (by norm_num))⟩

theorem padTwo_spec (n : Nat) (hn : n < 100) :
    ∃ a b : Char, (padTwo n).data = [a, b] ∧ a.isDigit ∧ b.isDigit := by
  by_cases h : n < 10
  · have hd : (natToDecimal n).data = [Nat.digitChar n] :=
      natToDecimalAux_small _ _ (by omega) h
    refine ⟨'0', Nat.digitChar n, ?_, by decide, digitChar_isDigit h⟩
    unfold padTwo
    rw [if_pos (by rw [str_length_data, hd]; simp)]
    simp [data_append, hd]
  · have h1 : 10 ≤ n := by omega
    have hd := natToDecimal_two n h1 hn
    have hq : n / 10 < 10 := by rw [Nat.div_lt_iff_lt_mul (by norm_num)]; omega
    refine ⟨Nat.digitChar (n / 10), Nat.digitChar (n % 10), ?_,
      digitChar_isDigit hq, digitChar_isDigit (Nat.mod_lt _ (by norm_num))⟩
    unfold padTwo
    rw [if_neg (by rw [str_length_data, hd]; simp)]
    exact hd

theorem backupRun_dest_shape {chk : FS → FS} {ts : String} {bareOk destOk walOk shmOk : Bool}
    {t0 t : Tr} {dest src : Path}
    (h : backupRun chk ts bareOk destOk walOk shmOk t0 = (t, some (dest, src))) :
    dest = BACKUP_DIR ++ ("debitmanager-" ++ (ts ++ ".db")) := by
  unfold backupRun at h
  cases hr : resolveDatabasePath t0.fs with
  | none => rw [hr] at h; cases h
  | some dbPath0 =>
    rw [hr] at h
    simp only at h
    cases hg : (bareCopyStep bareOk (Tr.chk t0 chk) (backupSourcePick t0.fs dbPath0)).2.fs.get
        (bareCopyStep bareOk (Tr.chk t0 chk) (backupSourcePick t0.fs dbPath0)).1 with
    | none => rw [hg] at h; cases h
    | some c =>
      rw [hg] at h
      cases destOk with
      | false => simp at h
      | true =>
        simp only [if_true] at h
        injection h with h1 h2
        injection h2 with h3
        injection h3 with h4 h5
        exact h4.symm

/-- C6: for every fixed local wall-clock time with a four-digit year and any
UTC offset, the timestamp embedded in backup filenames matches the exact
pattern `YYYY-MM-DDTHH-mm-ss±HHMM`, and a successful backup places its
artifact at `backups/debitmanager-<timestamp>.db`. -/
theorem timestamp_filename_format (d : JsDate)
    (hy1 : 1000 ≤ d.fullYear) (hy2 : d.fullYear < 10000)
    (hmo : d.month0 + 1 < 100) (hda : d.date < 100) (hho : d.hours < 100)
    (hmi : d.minutes < 100) (hse : d.seconds < 100)
    (htz : d.tzOffsetMin.natAbs < 6000) :
    matchesTsPattern (timestampOf d) = true ∧
    (∀ (chk : FS → FS) (bareOk destOk walOk shmOk : Bool) (fs fs2 : FS) (dest src : Path),
      backupDatabaseFull chk (timestampOf d) bareOk destOk walOk shmOk fs =
        some (fs2, dest, src) →
      dest = BACKUP_DIR ++ ("debitmanager-" ++ (timestampOf d ++ ".db"))) := by
  constructor
  · obtain ⟨a, b, c, dd, hy, ha, hb, hc, hdd⟩ := natToDecimal_four d.fullYear hy1 hy2
    obtain ⟨m1, m2, hm, hm1, hm2⟩ := padTwo_spec (d.month0 + 1) hmo
    obtain ⟨a1, a2, hda2, ha1, ha2⟩ := padTwo_spec d.date hda
    obtain ⟨k1, k2, hho2, hk1, hk2⟩ := padTwo_spec d.hours hho
    obtain ⟨n1, n2, hmi2, hn1, hn2⟩ := padTwo_spec d.minutes hmi
    obtain ⟨e1, e2, hse2, he1, he2⟩ := padTwo_spec d.seconds hse
    have habs : (-d.tzOffsetMin).natAbs = d.tzOffsetMin.natAbs := Int.natAbs_neg d.tzOffsetMin
    have hth : (-d.tzOffsetMin).natAbs / 60 < 100 := by
      rw [habs, Nat.div_lt_iff_lt_mul (by norm_num)]; omega
    have htm : (-d.tzOffsetMin).natAbs % 60 < 100 :=
      lt_trans (Nat.mod_lt _ (by norm_num)) (by norm_num)
    obtain ⟨o1, o2, hth2, ho1, ho2⟩ := padTwo_spec _ hth
    obtain ⟨o3, o4, htm2, ho3, ho4⟩ := padTwo_spec _ htm
    rw [habs] at hth2 htm2
    have hdash : ("-" : String).data = ['-'] := rfl
    have hTc : ("T" : String).data = ['T'] := rfl
    have hplus : ("+" : String).data = ['+'] := rfl
    by_cases hsg : (0 : Int) ≤ -d.tzOffsetMin
    · have hdata : (timestampOf d).data = a :: b :: c :: dd :: '-' :: m1 :: m2 :: '-' ::
          a1 :: a2 :: 'T' :: k1 :: k2 :: '-' :: n1 :: n2 :: '-' :: e1 :: e2 ::
          '+' :: o1 :: o2 :: o3 :: o4 :: [] := by
        simp only [timestampOf]
        rw [if_pos hsg]
        simp [data_append, hy, hm, hda2, hho2, hmi2, hse2, hth2, htm2, hdash, hTc, hplus]
      unfold matchesTsPattern
      rw [hdata]
      simp [ha, hb, hc, hdd, hm1, hm2, ha1, ha2, hk1, hk2, hn1, hn2, he1, he2,
        ho1, ho2, ho3, ho4]
    · have hdata : (timestampOf d).data = a :: b :: c :: dd :: '-' :: m1 :: m2 :: '-' ::
          a1 :: a2 :: 'T' :: k1 :: k2 :: '-' :: n1 :: n2 :: '-' :: e1 :: e2 ::
          '-' :: o1 :: o2 :: o3 :: o4 :: [] := by
        simp only [timestampOf]
        rw [if_neg hsg]
        simp [data_append, hy, hm, hda2, hho2, hmi2, hse2, hth2, htm2, hdash, hTc]
      unfold matchesTsPattern
      rw [hdata]
      simp [ha, hb, hc, hdd, hm1, hm2, ha1, ha2, hk1, hk2, hn1, hn2, he1, he2,
        ho1, ho2, ho3, ho4]
  · intro chk bareOk destOk walOk shmOk fs fs2 dest src hrun
    unfold backupDatabaseFull at hrun
    cases hb : backupRun chk (timestampOf d) bareOk destOk walOk shmOk ⟨fs, []⟩ with
    | mk t r =>
      rw [hb] at hrun
      cases r with
      | none => cases hrun
      | some pr =>
        obtain ⟨dest0, src0⟩ := pr
        have hshape := backupRun_dest_shape hb
        simp only [Option.some.injEq, Prod.mk.injEq] at hrun
        rw [← hrun.2.1]
        exact hshape

theorem timestamp_filename_format_witness :
    matchesTsPattern (timestampOf ⟨2024, 2, 2, 14, 5, 9, -330⟩) = true :=
  (timestamp_filename_format ⟨2024, 2, 2, 14, 5, 9, -330⟩ (by norm_num) (by norm_num)
    (by norm_num) (by norm_num) (by norm_num) (by norm_num) (by norm_num) (by decide)).1

/-! ## Step lemmas for the snapshot engine -/

theorem isPrefixOf_append_self (p r : List Char) : p.isPrefixOf (p ++ r) = true := by
  induction p with
  | nil => simp
  | cons a p ih => simp [List.isPrefixOf_cons₂, ih]

theorem strEnds_append (a s : String) : strEnds (a ++ s) s = true := by
  unfold strEnds
  rw [data_append]
  unfold List.isSuffixOf
  rw [List.reverse_append]
  exact isPrefixOf_append_self _ _

theorem db_data_ne_nil : (".db" : String).data ≠ [] := by decide

theorem wal_data_ne_nil : ("-wal" : String).data ≠ [] := by decide

theorem shm_data_ne_nil : ("-shm" : String).data ≠ [] := by decide

theorem backupSourcePick_cases (fs : FS) (p : Path) :
    backupSourcePick fs p = p ∨ backupSourcePick fs p = p ++ ".db" := by
  unfold backupSourcePick
  split
  · exact Or.inl rfl
  · split
    · exact Or.inr rfl
    · exact Or.inl rfl

theorem bareCopyStep_ends (bareOk : Bool) (t : Tr) (p : Path)
    (h : strEnds p ".db" = true) : bareCopyStep bareOk t p = (p, t) := by
  unfold bareCopyStep
  rw [if_pos h]

theorem bareCopyStep_src (bareOk : Bool) (t : Tr) (p : Path) :
    (bareCopyStep bareOk t p).1 = p ∨ (bareCopyStep bareOk t p).1 = p ++ ".db" := by
  unfold bareCopyStep
  split
  · exact Or.inl rfl
  · cases hg : t.fs.get p with
    | none => exact Or.inl rfl
    | some c =>
      cases bareOk with
      | true => exact Or.inr rfl
      | false => exact Or.inl rfl

theorem bareCopyStep_fs_get (bareOk : Bool) (t : Tr) (p q : Path)
    (hq : q ≠ p ++ ".db") :
    (bareCopyStep bareOk t p).2.fs.get q = t.fs.get q := by
  unfold bareCopyStep
  split
  · rfl
  · cases hg : t.fs.get p with
    | none => rfl
    | some c =>
      cases bareOk with
      | true => simp only [if_true, Tr.write]; exact fs_get_set_ne _ _ _ _ hq
      | false => rfl

theorem sidecarStep_get_ne (ok : Bool) (t : Tr) (s dside q : Path) (hq : q ≠ dside) :
    (sidecarStep ok t s dside).fs.get q = t.fs.get q := by
  unfold sidecarStep
  cases hg : t.fs.get s with
  | none => rfl
  | some w =>
    cases ok with
    | true => simp only [if_true, Tr.write]; exact fs_get_set_ne _ _ _ _ hq
    | false => rfl

/-- Characterization of a successful `backupRun`: the final source is the
resolved path or its canonical-suffixed sibling; every path outside the
backups directory other than that sibling keeps its post-checkpoint content;
and the artifact holds exactly the bytes of the final source. -/
theorem backupRun_success_spec
    (chk : FS → FS) (ts : String) (bareOk destOk walOk shmOk : Bool)
    (t0 t : Tr) (dest src2 src : Path)
    (hrun : backupRun chk ts bareOk destOk walOk shmOk t0 = (t, some (dest, src2)))
    (hsrc : resolveDatabasePath t0.fs = some src) :
    (src2 = src ∨ src2 = src ++ ".db") ∧
    (∀ q, (∀ x, q ≠ BACKUP_DIR ++ x) → q ≠ src ++ ".db" →
      t.fs.get q = (chk t0.fs).get q) ∧
    (∃ c, t.fs.get dest = some c ∧ t.fs.get src2 = some c) := by
  obtain ⟨nm, hnm⟩ := resolve_shape hsrc
  unfold backupRun at hrun
  rw [hsrc] at hrun
  simp only at hrun
  have ht1 : Tr.chk t0 chk = ⟨chk t0.fs, t0.hist⟩ := rfl
  obtain hp1 := backupSourcePick_cases t0.fs src
  cases hg : (bareCopyStep bareOk (Tr.chk t0 chk) (backupSourcePick t0.fs src)).2.fs.get
      (bareCopyStep bareOk (Tr.chk t0 chk) (backupSourcePick t0.fs src)).1 with
  | none => rw [hg] at hrun; cases hrun
  | some c =>
    rw [hg] at hrun
    cases destOk with
    | false => simp at hrun
    | true =>
      simp only [if_true] at hrun
      injection hrun with h1 h2
      injection h2 with h3
      injection h3 with h4 h5
      subst h1
      subst h4
      subst h5
      -- abbreviations
      have hsrc2 : (bareCopyStep bareOk (Tr.chk t0 chk) (backupSourcePick t0.fs src)).1 = src ∨
          (bareCopyStep bareOk (Tr.chk t0 chk) (backupSourcePick t0.fs src)).1 =
            src ++ ".db" := by
        cases hp1 with
        | inl h =>
          rw [h]
          exact bareCopyStep_src _ _ _
        | inr h =>
          rw [h, bareCopyStep_ends _ _ _ (strEnds_append _ _)]
          exact Or.inr rfl
      refine ⟨hsrc2, ?_, ?_⟩
      · intro q hq1 hq2
        have hqdest : q ≠ BACKUP_DIR ++ ("debitmanager-" ++ (ts ++ ".db")) := hq1 _
        have hqwal : q ≠ (BACKUP_DIR ++ ("debitmanager-" ++ (ts ++ ".db"))) ++ "-wal" := by
          rw [str_append_assoc]; exact hq1 _
        have hqshm : q ≠ (BACKUP_DIR ++ ("debitmanager-" ++ (ts ++ ".db"))) ++ "-shm" := by
          rw [str_append_assoc]; exact hq1 _
        rw [sidecarStep_get_ne _ _ _ _ _ hqshm, sidecarStep_get_ne _ _ _ _ _ hqwal]
        show ((bareCopyStep bareOk (Tr.chk t0 chk) (backupSourcePick t0.fs src)).2.write
          (BACKUP_DIR ++ ("debitmanager-" ++ (ts ++ ".db"))) c).fs.get q = _
        rw [Tr.write]
        show ((bareCopyStep bareOk (Tr.chk t0 chk)
          (backupSourcePick t0.fs src)).2.fs.set _ c).get q = _
        rw [fs_get_set_ne _ _ _ _ hqdest]
        cases hp1 with
        | inl h =>
          rw [h, bareCopyStep_fs_get _ _ _ _ hq2]
          rfl
        | inr h =>
          rw [h, bareCopyStep_ends _ _ _ (strEnds_append _ _)]
          rfl
      · refine ⟨c, ?_, ?_⟩
        · have hwal : (BACKUP_DIR ++ ("debitmanager-" ++ (ts ++ ".db"))) ≠
              (BACKUP_DIR ++ ("debitmanager-" ++ (ts ++ ".db"))) ++ "-wal" :=
            str_self_ne_append _ _ wal_data_ne_nil
          have hshm : (BACKUP_DIR ++ ("debitmanager-" ++ (ts ++ ".db"))) ≠
              (BACKUP_DIR ++ ("debitmanager-" ++ (ts ++ ".db"))) ++ "-shm" :=
            str_self_ne_append _ _ shm_data_ne_nil
          rw [sidecarStep_get_ne _ _ _ _ _ hshm, sidecarStep_get_ne _ _ _ _ _ hwal]
          show ((bareCopyStep bareOk (Tr.chk t0 chk) (backupSourcePick t0.fs src)).2.write
            (BACKUP_DIR ++ ("debitmanager-" ++ (ts ++ ".db"))) c).fs.get _ = some c
          rw [Tr.write]
          exact fs_get_set_self _ _ _
        · have hsq : ∀ y : String,
              (bareCopyStep bareOk (Tr.chk t0 chk) (backupSourcePick t0.fs src)).1 ≠
                BACKUP_DIR ++ y := by
            intro y
            cases hsrc2 with
            | inl h => rw [h, hnm]; exact sqlite_ne_backup _ _
            | inr h => rw [h, hnm, str_append_assoc]; exact sqlite_ne_backup _ _
          have hq1 : (bareCopyStep bareOk (Tr.chk t0 chk) (backupSourcePick t0.fs src)).1 ≠
              (BACKUP_DIR ++ ("debitmanager-" ++ (ts ++ ".db"))) ++ "-wal" := by
            rw [str_append_assoc]; exact hsq _
          have hq2 : (bareCopyStep bareOk (Tr.chk t0 chk) (backupSourcePick t0.fs src)).1 ≠
              (BACKUP_DIR ++ ("debitmanager-" ++ (ts ++ ".db"))) ++ "-shm" := by
            rw [str_append_assoc]; exact hsq _
          rw [sidecarStep_get_ne _ _ _ _ _ hq2, sidecarStep_get_ne _ _ _ _ _ hq1]
          show ((bareCopyStep bareOk (Tr.chk t0 chk) (backupSourcePick t0.fs src)).2.write
            (BACKUP_DIR ++ ("debitmanager-" ++ (ts ++ ".db"))) c).fs.get _ = some c
          rw [Tr.write]
          show ((bareCopyStep bareOk (Tr.chk t0 chk)
            (backupSourcePick t0.fs src)).2.fs.set _ c).get _ = some c
          rw [fs_get_set_ne _ _ _ _ (hsq _)]
          exact hg

/-! ## C4: backup is non-destructive -/

theorem str_append_ne_append (p : Path) {a b : String} (h : a ≠ b) : p ++ a ≠ p ++ b :=
  fun he => h (str_append_cancel he)

/-- C4: after any successful `backupDatabase` run, the resolved source file
holds exactly its post-checkpoint content (the copy steps never write to the
source), the final source actually copied is the resolved path or its
canonical `.db` sibling, and the returned destination holds an artifact with
exactly the final source bytes. -/
theorem backup_nondestructive
    (chk : FS → FS) (ts : String) (bareOk destOk walOk shmOk : Bool)
    (fs fs2 : FS) (dest src2 src : Path)
    (hrun : backupDatabaseFull chk ts bareOk destOk walOk shmOk fs = some (fs2, dest, src2))
    (hsrc : resolveDatabasePath fs = some src) :
    fs2.get src = (chk fs).get src ∧
    (src2 = src ∨ src2 = src ++ ".db") ∧
    (∃ c, fs2.get dest = some c ∧ fs2.get src2 = some c) := by
  unfold backupDatabaseFull at hrun
  cases hb : backupRun chk ts bareOk destOk walOk shmOk ⟨fs, []⟩ with
  | mk t r =>
    rw [hb] at hrun
    cases r with
    | none => cases hrun
    | some pr =>
      obtain ⟨dest0, src0⟩ := pr
      simp only [Option.some.injEq, Prod.mk.injEq] at hrun
      obtain ⟨hfs, hdest, hsrc2⟩ := hrun
      subst hfs
      subst hdest
      subst hsrc2
      obtain ⟨hs2, hframe, hart⟩ :=
        backupRun_success_spec chk ts bareOk destOk walOk shmOk ⟨fs, []⟩ t dest0 src0 src hb hsrc
      obtain ⟨nm, hnm⟩ := resolve_shape hsrc
      refine ⟨?_, hs2, hart⟩
      apply hframe
      · intro x
        rw [hnm]
        exact sqlite_ne_backup _ _
      · exact str_self_ne_append _ _ db_data_ne_nil

theorem backup_nondestructive_witness :
    (⟨[(BACKUP_DIR ++ ("debitmanager-" ++ ("TS" ++ ".db")), 5),
        (canonicalPath, 5)]⟩ : FS).get canonicalPath =
      (id (⟨[(canonicalPath, 5)]⟩ : FS)).get canonicalPath ∧
    (canonicalPath = canonicalPath ∨ canonicalPath = canonicalPath ++ ".db") ∧
    (∃ c, (⟨[(BACKUP_DIR ++ ("debitmanager-" ++ ("TS" ++ ".db")), 5),
        (canonicalPath, 5)]⟩ : FS).get (BACKUP_DIR ++ ("debitmanager-" ++ ("TS" ++ ".db"))) =
        some c ∧
      (⟨[(BACKUP_DIR ++ ("debitmanager-" ++ ("TS" ++ ".db")), 5),
        (canonicalPath, 5)]⟩ : FS).get canonicalPath = some c) :=
  backup_nondestructive id "TS" true true true true
    ⟨[(canonicalPath, 5)]⟩
    ⟨[(BACKUP_DIR ++ ("debitmanager-" ++ ("TS" ++ ".db")), 5), (canonicalPath, 5)]⟩
    (BACKUP_DIR ++ ("debitmanager-" ++ ("TS" ++ ".db"))) canonicalPath canonicalPath
    (by decide) (by decide)

/-! ## C9: sidecar propagation is best effort -/

theorem sidecarStep_write (t : Tr) (s dside : Path) (w : Content)
    (hg : t.fs.get s = some w) : sidecarStep true t s dside = t.write dside w := by
  unfold sidecarStep
  rw [hg]
  rfl

theorem bareCopy_sidecar_get (bareOk : Bool) (t : Tr) (p : Path) (sf : String)
    (hnil : sf.data ≠ []) :
    (bareCopyStep bareOk t p).2.fs.get ((bareCopyStep bareOk t p).1 ++ sf) =
      t.fs.get ((bareCopyStep bareOk t p).1 ++ sf) := by
  unfold bareCopyStep
  split
  · rfl
  · cases hg : t.fs.get p with
    | none => rfl
    | some c =>
      cases bareOk with
      | false => rfl
      | true =>
        simp only [if_true, Tr.write]
        exact fs_get_set_ne _ _ _ _ (str_append_ne_self _ _ hnil)

/-- Characterization of the best-effort sidecar copies of a successful
`backupRun` with a successful main copy: when the sidecar copy succeeds the
artifact sidecar holds exactly the source sidecar bytes, and the run result
does not depend on the sidecar oracles. -/
theorem backupRun_sidecar_spec
    (chk : FS → FS) (ts : String) (bareOk walOk shmOk : Bool)
    (t0 t : Tr) (dest src2 : Path)
    (hrun : backupRun chk ts bareOk true walOk shmOk t0 = (t, some (dest, src2))) :
    (walOk = true → ∀ w, (chk t0.fs).get (src2 ++ "-wal") = some w →
      t.fs.get (dest ++ "-wal") = some w) ∧
    (shmOk = true → ∀ w, (chk t0.fs).get (src2 ++ "-shm") = some w →
      t.fs.get (dest ++ "-shm") = some w) ∧
    (∀ walOk2 shmOk2 : Bool, ∃ t2, backupRun chk ts bareOk true walOk2 shmOk2 t0 =
      (t2, some (dest, src2))) := by
  cases hres : resolveDatabasePath t0.fs with
  | none =>
    unfold backupRun at hrun
    rw [hres] at hrun
    cases hrun
  | some src =>
    obtain ⟨nm, hnm⟩ := resolve_shape hres
    unfold backupRun at hrun
    rw [hres] at hrun
    simp only at hrun
    cases hg : (bareCopyStep bareOk (Tr.chk t0 chk) (backupSourcePick t0.fs src)).2.fs.get
        (bareCopyStep bareOk (Tr.chk t0 chk) (backupSourcePick t0.fs src)).1 with
    | none => rw [hg] at hrun; cases hrun
    | some c =>
      rw [hg] at hrun
      simp only [if_true] at hrun
      injection hrun with h1 h2
      injection h2 with h3
      injection h3 with h4 h5
      subst h1
      subst h4
      subst h5
      have hS : (bareCopyStep bareOk (Tr.chk t0 chk) (backupSourcePick t0.fs src)).1 = src ∨
          (bareCopyStep bareOk (Tr.chk t0 chk) (backupSourcePick t0.fs src)).1 =
            src ++ ".db" := by
        cases backupSourcePick_cases t0.fs src with
        | inl h =>
          rw [h]
          exact bareCopyStep_src _ _ _
        | inr h =>
          rw [h, bareCopyStep_ends _ _ _ (strEnds_append _ _)]
          exact Or.inr rfl
      have hshape : ∀ sf : String,
          ∃ y, (bareCopyStep bareOk (Tr.chk t0 chk) (backupSourcePick t0.fs src)).1 ++ sf =
            SQLITE_DIR ++ y := by
        intro sf
        cases hS with
        | inl h => exact ⟨nm ++ sf, by rw [h, hnm, str_append_assoc]⟩
        | inr h =>
          exact ⟨nm ++ (".db" ++ sf), by rw [h, hnm, str_append_assoc, str_append_assoc]⟩
      have hwalne : (bareCopyStep bareOk (Tr.chk t0 chk) (backupSourcePick t0.fs src)).1 ++
          "-wal" ≠ BACKUP_DIR ++ ("debitmanager-" ++ (ts ++ ".db")) := by
        obtain ⟨y, hy⟩ := hshape "-wal"
        rw [hy]
        exact sqlite_ne_backup _ _
      have hshmne : (bareCopyStep bareOk (Tr.chk t0 chk) (backupSourcePick t0.fs src)).1 ++
          "-shm" ≠ BACKUP_DIR ++ ("debitmanager-" ++ (ts ++ ".db")) := by
        obtain ⟨y, hy⟩ := hshape "-shm"
        rw [hy]
        exact sqlite_ne_backup _ _
      refine ⟨?_, ?_, ?_⟩
      · intro hw w hww
        subst hw
        have hT3 : ((bareCopyStep bareOk (Tr.chk t0 chk) (backupSourcePick t0.fs src)).2.write
            (BACKUP_DIR ++ ("debitmanager-" ++ (ts ++ ".db"))) c).fs.get
            ((bareCopyStep bareOk (Tr.chk t0 chk) (backupSourcePick t0.fs src)).1 ++ "-wal") =
            some w := by
          rw [Tr.write]
          show ((bareCopyStep bareOk (Tr.chk t0 chk)
            (backupSourcePick t0.fs src)).2.fs.set _ c).get _ = some w
          rw [fs_get_set_ne _ _ _ _ hwalne, bareCopy_sidecar_get _ _ _ _ wal_data_ne_nil]
          exact hww
        rw [sidecarStep_write _ _ _ _ hT3]
        have hne : (BACKUP_DIR ++ ("debitmanager-" ++ (ts ++ ".db"))) ++ "-wal" ≠
            (BACKUP_DIR ++ ("debitmanager-" ++ (ts ++ ".db"))) ++ "-shm" :=
          str_append_ne_append _ (by decide)
        rw [sidecarStep_get_ne _ _ _ _ _ hne, Tr.write]
        exact fs_get_set_self _ _ _
      · intro hw w hww
        subst hw
        have hT4 : (sidecarStep walOk
            ((bareCopyStep bareOk (Tr.chk t0 chk) (backupSourcePick t0.fs src)).2.write
              (BACKUP_DIR ++ ("debitmanager-" ++ (ts ++ ".db"))) c)
            ((bareCopyStep bareOk (Tr.chk t0 chk) (backupSourcePick t0.fs src)).1 ++ "-wal")
            ((BACKUP_DIR ++ ("debitmanager-" ++ (ts ++ ".db"))) ++ "-wal")).fs.get
            ((bareCopyStep bareOk (Tr.chk t0 chk) (backupSourcePick t0.fs src)).1 ++ "-shm") =
            some w := by
          have hne2 : (bareCopyStep bareOk (Tr.chk t0 chk)
              (backupSourcePick t0.fs src)).1 ++ "-shm" ≠
              (BACKUP_DIR ++ ("debitmanager-" ++ (ts ++ ".db"))) ++ "-wal" := by
            obtain ⟨y, hy⟩ := hshape "-shm"
            rw [hy, str_append_assoc]
            exact sqlite_ne_backup _ _
          rw [sidecarStep_get_ne _ _ _ _ _ hne2, Tr.write]
          show ((bareCopyStep bareOk (Tr.chk t0 chk)
            (backupSourcePick t0.fs src)).2.fs.set _ c).get _ = some w
          rw [fs_get_set_ne _ _ _ _ hshmne, bareCopy_sidecar_get _ _ _ _ shm_data_ne_nil]
          exact hww
        rw [sidecarStep_write _ _ _ _ hT4, Tr.write]
        exact fs_get_set_self _ _ _
      · intro walOk2 shmOk2
        refine ⟨(backupRun chk ts bareOk true walOk2 shmOk2 t0).1, ?_⟩
        have h2 : (backupRun chk ts bareOk true walOk2 shmOk2 t0).2 =
            some (BACKUP_DIR ++ ("debitmanager-" ++ (ts ++ ".db")),
              (bareCopyStep bareOk (Tr.chk t0 chk) (backupSourcePick t0.fs src)).1) := by
          unfold backupRun
          rw [hres]
          simp only
          rw [hg]
          simp
        rw [← h2]

/-- C9: when `-wal`/`-shm` sidecars exist next to the final backup source
and their best-effort copies succeed, sidecar files with matching suffixes
and identical content appear next to the artifact; and a sidecar-copy
failure never fails the backup: the run still returns the same artifact and
source paths for any sidecar oracle values. -/
theorem backup_sidecar_best_effort
    (chk : FS → FS) (ts : String) (bareOk walOk shmOk : Bool)
    (fs fs2 : FS) (dest src2 : Path)
    (hrun : backupDatabaseFull chk ts bareOk true walOk shmOk fs = some (fs2, dest, src2)) :
    (walOk = true → ∀ w, (chk fs).get (src2 ++ "-wal") = some w →
      fs2.get (dest ++ "-wal") = some w) ∧
    (shmOk = true → ∀ w, (chk fs).get (src2 ++ "-shm") = some w →
      fs2.get (dest ++ "-shm") = some w) ∧
    (∀ walOk2 shmOk2 : Bool, ∃ fs3,
      backupDatabaseFull chk ts bareOk true walOk2 shmOk2 fs = some (fs3, dest, src2)) := by
  unfold backupDatabaseFull at hrun
  cases hb : backupRun chk ts bareOk true walOk shmOk ⟨fs, []⟩ with
  | mk t r =>
    rw [hb] at hrun
    cases r with
    | none => cases hrun
    | some pr =>
      obtain ⟨dest0, src0⟩ := pr
      simp only [Option.some.injEq, Prod.mk.injEq] at hrun
      obtain ⟨hfs, hdest, hsrc2⟩ := hrun
      subst hfs
      subst hdest
      subst hsrc2
      obtain ⟨hw, hs, hind⟩ :=
        backupRun_sidecar_spec chk ts bareOk walOk shmOk ⟨fs, []⟩ t dest0 src0 hb
      refine ⟨hw, hs, ?_⟩
      intro walOk2 shmOk2
      obtain ⟨t2, ht2⟩ := hind walOk2 shmOk2
      refine ⟨t2.fs, ?_⟩
      unfold backupDatabaseFull
      rw [ht2]

theorem backup_sidecar_best_effort_witness :
    ((true : Bool) = true → ∀ w,
      (id (⟨[(canonicalPath, 5), (canonicalPath ++ "-wal", 9)]⟩ : FS)).get
          (canonicalPath ++ "-wal") = some w →
      (⟨[(BACKUP_DIR ++ ("debitmanager-" ++ ("TS" ++ ".db")) ++ "-wal", 9),
          (BACKUP_DIR ++ ("debitmanager-" ++ ("TS" ++ ".db")), 5),
          (canonicalPath, 5), (canonicalPath ++ "-wal", 9)]⟩ : FS).get
          (BACKUP_DIR ++ ("debitmanager-" ++ ("TS" ++ ".db")) ++ "-wal") = some w) ∧
    ((true : Bool) = true → ∀ w,
      (id (⟨[(canonicalPath, 5), (canonicalPath ++ "-wal", 9)]⟩ : FS)).get
          (canonicalPath ++ "-shm") = some w →
      (⟨[(BACKUP_DIR ++ ("debitmanager-" ++ ("TS" ++ ".db")) ++ "-wal", 9),
          (BACKUP_DIR ++ ("debitmanager-" ++ ("TS" ++ ".db")), 5),
          (canonicalPath, 5), (canonicalPath ++ "-wal", 9)]⟩ : FS).get
          (BACKUP_DIR ++ ("debitmanager-" ++ ("TS" ++ ".db")) ++ "-shm") = some w) ∧
    (∀ walOk2 shmOk2 : Bool, ∃ fs3,
      backupDatabaseFull id "TS" true true walOk2 shmOk2
          ⟨[(canonicalPath, 5), (canonicalPath ++ "-wal", 9)]⟩ =
        some (fs3, BACKUP_DIR ++ ("debitmanager-" ++ ("TS" ++ ".db")), canonicalPath)) :=
  backup_sidecar_best_effort id "TS" true true true
    ⟨[(canonicalPath, 5), (canonicalPath ++ "-wal", 9)]⟩
    ⟨[(BACKUP_DIR ++ ("debitmanager-" ++ ("TS" ++ ".db")) ++ "-wal", 9),
      (BACKUP_DIR ++ ("debitmanager-" ++ ("TS" ++ ".db")), 5),
      (canonicalPath, 5), (canonicalPath ++ "-wal", 9)]⟩
    (BACKUP_DIR ++ ("debitmanager-" ++ ("TS" ++ ".db"))) canonicalPath
    (by decide)

/-! ## Snapshot-phase invariant lemmas for the restore flow -/

theorem canonical_not_backup (x : String) : canonicalPath ≠ BACKUP_DIR ++ x :=
  sqlite_ne_backup _ _

theorem SnapInv_self (fs0 : FS) (h0 : List (FsEv × FS)) : SnapInv fs0 h0 ⟨fs0, h0⟩ :=
  ⟨fun _ _ => rfl, [], (List.append_nil h0).symm, by simp⟩

theorem SnapInv_write (fs0 : FS) (h0 : List (FsEv × FS)) (t : Tr) (x : String) (c : Content)
    (h : SnapInv fs0 h0 t) : SnapInv fs0 h0 (t.write (BACKUP_DIR ++ x) c) := by
  obtain ⟨hframe, hb, hhist, hmem⟩ := h
  constructor
  · intro q hq
    show (t.fs.set (BACKUP_DIR ++ x) c).get q = fs0.get q
    rw [fs_get_set_ne _ _ _ _ (hq x)]
    exact hframe q hq
  · refine ⟨hb ++ [(FsEv.write (BACKUP_DIR ++ x) c, t.fs.set (BACKUP_DIR ++ x) c)], ?_, ?_⟩
    · show t.hist ++ _ = _
      rw [hhist, List.append_assoc]
    · intro pr hpr
      rcases List.mem_append.mp hpr with hin | hin
      · exact hmem pr hin
      · rw [List.mem_singleton] at hin
        subst hin
        refine ⟨⟨x, c, rfl⟩, ?_⟩
        show (t.fs.set (BACKUP_DIR ++ x) c).get canonicalPath = _
        rw [fs_get_set_ne _ _ _ _ (canonical_not_backup x)]
        exact hframe canonicalPath canonical_not_backup

theorem SnapInv_sidecar (fs0 : FS) (h0 : List (FsEv × FS)) (ok : Bool) (t : Tr)
    (s : Path) (x : String) (h : SnapInv fs0 h0 t) :
    SnapInv fs0 h0 (sidecarStep ok t s (BACKUP_DIR ++ x)) := by
  unfold sidecarStep
  cases hg : t.fs.get s with
  | none => exact h
  | some w =>
    cases ok with
    | false => exact h
    | true => exact SnapInv_write fs0 h0 t x w h

/-- In the scenario where the canonical database file exists and the
checkpoint helpers do not mutate the filesystem, the pre-restore snapshot
taken by `backupRun` always succeeds, resolves to the canonical path,
records only backup-directory writes, and captures the canonical bytes in
the artifact. -/
theorem backupRun_canonical
    (chk : FS → FS) (ts : String) (bareOk walOk shmOk : Bool)
    (t0 : Tr) (orig : Content)
    (hc : t0.fs.get canonicalPath = some orig) (hchk : ∀ g, chk g = g) :
    ∃ t : Tr,
      backupRun chk ts bareOk true walOk shmOk t0 =
        (t, some (BACKUP_DIR ++ ("debitmanager-" ++ (ts ++ ".db")), canonicalPath)) ∧
      SnapInv t0.fs t0.hist t ∧
      t.fs.get (BACKUP_DIR ++ ("debitmanager-" ++ (ts ++ ".db"))) = some orig := by
  have hres : resolveDatabasePath t0.fs = some canonicalPath := resolve_of_canonical hc
  have hends : strEnds canonicalPath ".db" = true := by decide
  have hchkT : Tr.chk t0 chk = t0 := by
    show (⟨chk t0.fs, t0.hist⟩ : Tr) = t0
    rw [hchk t0.fs]
  have hpick : backupSourcePick t0.fs canonicalPath = canonicalPath := by
    unfold backupSourcePick
    rw [if_pos hends]
  have hbare : bareCopyStep bareOk t0 canonicalPath = (canonicalPath, t0) :=
    bareCopyStep_ends _ _ _ hends
  have hwa : (BACKUP_DIR ++ ("debitmanager-" ++ (ts ++ ".db"))) ++ "-wal" =
      BACKUP_DIR ++ (("debitmanager-" ++ (ts ++ ".db")) ++ "-wal") := str_append_assoc _ _ _
  have hsa : (BACKUP_DIR ++ ("debitmanager-" ++ (ts ++ ".db"))) ++ "-shm" =
      BACKUP_DIR ++ (("debitmanager-" ++ (ts ++ ".db")) ++ "-shm") := str_append_assoc _ _ _
  have heq : backupRun chk ts bareOk true walOk shmOk t0 =
      (sidecarStep shmOk
        (sidecarStep walOk (t0.write (BACKUP_DIR ++ ("debitmanager-" ++ (ts ++ ".db"))) orig)
          (canonicalPath ++ "-wal")
          ((BACKUP_DIR ++ ("debitmanager-" ++ (ts ++ ".db"))) ++ "-wal"))
        (canonicalPath ++ "-shm")
        ((BACKUP_DIR ++ ("debitmanager-" ++ (ts ++ ".db"))) ++ "-shm"),
        some (BACKUP_DIR ++ ("debitmanager-" ++ (ts ++ ".db")), canonicalPath)) := by
    unfold backupRun
    rw [hres]
    simp only
    rw [hchkT, hpick, hbare]
    simp only
    rw [hc]
    simp
  refine ⟨_, heq, ?_, ?_⟩
  · rw [hwa, hsa]
    exact SnapInv_sidecar _ _ _ _ _ _ (SnapInv_sidecar _ _ _ _ _ _
      (SnapInv_write _ _ _ _ _ (SnapInv_self t0.fs t0.hist)))
  · have h1 : BACKUP_DIR ++ ("debitmanager-" ++ (ts ++ ".db")) ≠
        (BACKUP_DIR ++ ("debitmanager-" ++ (ts ++ ".db"))) ++ "-shm" :=
      str_self_ne_append _ _ shm_data_ne_nil
    have h2 : BACKUP_DIR ++ ("debitmanager-" ++ (ts ++ ".db")) ≠
        (BACKUP_DIR ++ ("debitmanager-" ++ (ts ++ ".db"))) ++ "-wal" :=
      str_self_ne_append _ _ wal_data_ne_nil
    rw [sidecarStep_get_ne _ _ _ _ _ h1, sidecarStep_get_ne _ _ _ _ _ h2]
    show (t0.fs.set (BACKUP_DIR ++ ("debitmanager-" ++ (ts ++ ".db"))) orig).get _ = _
    exact fs_get_set_self _ _ _

/-- With the canonical file present, a `backupRun` whose main copy fails
leaves the filesystem untouched and reports failure. -/
theorem backupRun_canonical_destFail
    (chk : FS → FS) (ts : String) (bareOk walOk shmOk : Bool)
    (t0 : Tr) (orig : Content)
    (hc : t0.fs.get canonicalPath = some orig) (hchk : ∀ g, chk g = g) :
    backupRun chk ts bareOk false walOk shmOk t0 = (t0, none) := by
  have hres : resolveDatabasePath t0.fs = some canonicalPath := resolve_of_canonical hc
  have hends : strEnds canonicalPath ".db" = true := by decide
  have hchkT : Tr.chk t0 chk = t0 := by
    show (⟨chk t0.fs, t0.hist⟩ : Tr) = t0
    rw [hchk t0.fs]
  have hpick : backupSourcePick t0.fs canonicalPath = canonicalPath := by
    unfold backupSourcePick
    rw [if_pos hends]
  have hbare : bareCopyStep bareOk t0 canonicalPath = (canonicalPath, t0) :=
    bareCopyStep_ends _ _ _ hends
  unfold backupRun
  rw [hres]
  simp only
  rw [hchkT, hpick, hbare]
  simp only
  rw [hc]
  simp

/-! ## C1: rollback on mid-restore failure -/

theorem catchPath_rolledBack
    (rbFbOk : Bool) (ts : String) (tc : Tr) (orig : Content)
    (hcc : tc.fs.get canonicalPath = some orig)
    (hcd : tc.fs.get (BACKUP_DIR ++ ("debitmanager-" ++ (ts ++ ".db"))) = some orig) :
    catchPath true true rbFbOk (some (BACKUP_DIR ++ ("debitmanager-" ++ (ts ++ ".db")))) tc =
      (((tc.write (canonicalPath ++ ".rollback.tmp") orig).write canonicalPath orig).del
        (canonicalPath ++ ".rollback.tmp"), RestoreResult.failedRolledBack) := by
  have hendsC : strEnds canonicalPath ".db" = true := by decide
  unfold catchPath rollbackRun
  rw [resolve_of_canonical hcc]
  simp only [hendsC, if_true]
  rw [hcd]
  simp

theorem rollback_restores_canonical (tc : Tr) (orig : Content) :
    (((tc.write (canonicalPath ++ ".rollback.tmp") orig).write canonicalPath orig).del
      (canonicalPath ++ ".rollback.tmp")).fs.get canonicalPath = some orig := by
  have hne : canonicalPath ≠ canonicalPath ++ ".rollback.tmp" := by decide
  show ((((tc.fs.set (canonicalPath ++ ".rollback.tmp") orig).set canonicalPath orig)).del
    (canonicalPath ++ ".rollback.tmp")).get canonicalPath = some orig
  rw [fs_get_del_ne _ _ _ hne]
  exact fs_get_set_self _ _ _

/-- C1: in the local-file restore, when the canonical database file exists,
the checkpoint helpers do not mutate the filesystem, and the staging or
swapping step fails, then with a successful pre-restore snapshot the run
rolls the snapshot back onto the canonical path and reports failure with the
rollback-succeeded detail, leaving the canonical file with exactly its
pre-restore bytes; and with no pre-restore snapshot (failed snapshot copy)
it reports plain failure and leaves the existing canonical file untouched. -/
theorem restore_rollback_on_failure
    (chk : FS → FS) (ts : String) (bareOk walOk shmOk : Bool)
    (stageOk moveOk fbOk delTmpOk rbFbOk : Bool)
    (fs0 : FS) (orig c : Content)
    (hchk : ∀ g, chk g = g)
    (hcanon : fs0.get canonicalPath = some orig)
    (hfail : stageOk = false ∨ (moveOk = false ∧ fbOk = false)) :
    ((handleRestoreLocal chk ts bareOk true walOk shmOk (some c) stageOk moveOk fbOk
        delTmpOk true true rbFbOk fs0).result = RestoreResult.failedRolledBack ∧
      (handleRestoreLocal chk ts bareOk true walOk shmOk (some c) stageOk moveOk fbOk
        delTmpOk true true rbFbOk fs0).t.fs.get canonicalPath = some orig) ∧
    ((handleRestoreLocal chk ts bareOk false walOk shmOk (some c) stageOk moveOk fbOk
        delTmpOk true true rbFbOk fs0).result = RestoreResult.failedNoSnapshot ∧
      (handleRestoreLocal chk ts bareOk false walOk shmOk (some c) stageOk moveOk fbOk
        delTmpOk true true rbFbOk fs0).t.fs.get canonicalPath = some orig) := by
  have hchkT0 : Tr.chk ⟨fs0, []⟩ chk = ⟨fs0, []⟩ := by
    show (⟨chk fs0, []⟩ : Tr) = ⟨fs0, []⟩
    rw [hchk fs0]
  have hendsC : strEnds canonicalPath ".db" = true := by decide
  have hct : canonicalPath ≠ canonicalPath ++ ".restore.tmp" := by decide
  have htempS : canonicalPath ++ ".restore.tmp" =
      SQLITE_DIR ++ ("debitmanager.db" ++ ".restore.tmp") := by decide
  constructor
  · -- snapshot succeeds, staging or swapping fails, rollback succeeds
    obtain ⟨tb, heqB, hInv, hdest⟩ :=
      backupRun_canonical chk ts bareOk walOk shmOk ⟨fs0, []⟩ orig hcanon hchk
    have htbc : tb.fs.get canonicalPath = some orig := by
      rw [hInv.1 canonicalPath canonical_not_backup]
      exact hcanon
    have hchkTb : Tr.chk tb chk = tb := by
      show (⟨chk tb.fs, tb.hist⟩ : Tr) = tb
      rw [hchk tb.fs]
    have hres3 : resolveDatabasePath tb.fs = some canonicalPath := resolve_of_canonical htbc
    unfold handleRestoreLocal
    simp only [hchkT0, heqB, Option.map, hchkTb, hres3, hendsC, if_true]
    rcases hfail with hst | ⟨hmv, hfb⟩
    · subst hst
      simp only [Bool.false_eq_true, if_false]
      rw [catchPath_rolledBack rbFbOk ts tb orig htbc hdest]
      exact ⟨rfl, rollback_restores_canonical tb orig⟩
    · subst hmv
      subst hfb
      cases stageOk with
      | false =>
        simp only [Bool.false_eq_true, if_false]
        rw [catchPath_rolledBack rbFbOk ts tb orig htbc hdest]
        exact ⟨rfl, rollback_restores_canonical tb orig⟩
      | true =>
        simp only [if_true, Bool.false_eq_true, if_false]
        have ht4c : (tb.write (canonicalPath ++ ".restore.tmp") c).fs.get canonicalPath =
            some orig := by
          show (tb.fs.set (canonicalPath ++ ".restore.tmp") c).get canonicalPath = some orig
          rw [fs_get_set_ne _ _ _ _ hct]
          exact htbc
        have ht4d : (tb.write (canonicalPath ++ ".restore.tmp") c).fs.get
            (BACKUP_DIR ++ ("debitmanager-" ++ (ts ++ ".db"))) = some orig := by
          show (tb.fs.set (canonicalPath ++ ".restore.tmp") c).get _ = some orig
          rw [fs_get_set_ne]
          · exact hdest
          · rw [htempS]
            exact backup_ne_sqlite _ _
        rw [catchPath_rolledBack rbFbOk ts _ orig ht4c ht4d]
        exact ⟨rfl, rollback_restores_canonical _ orig⟩
  · -- snapshot copy fails: no snapshot, plain failure, canonical untouched
    have heqF := backupRun_canonical_destFail chk ts bareOk walOk shmOk ⟨fs0, []⟩ orig
      hcanon hchk
    have hres3 : resolveDatabasePath fs0 = some canonicalPath := resolve_of_canonical hcanon
    unfold handleRestoreLocal
    simp only [hchkT0, heqF, Option.map, hres3, hendsC, if_true, catchPath]
    rcases hfail with hst | ⟨hmv, hfb⟩
    · subst hst
      simp only [Bool.false_eq_true, if_false]
      exact ⟨trivial, hcanon⟩
    · subst hmv
      subst hfb
      cases stageOk with
      | false =>
        simp only [Bool.false_eq_true, if_false]
        exact ⟨trivial, hcanon⟩
      | true =>
        simp only [if_true, Bool.false_eq_true, if_false]
        refine ⟨trivial, ?_⟩
        show (FS.set fs0 (canonicalPath ++ ".restore.tmp") c).get canonicalPath = some orig
        rw [fs_get_set_ne _ _ _ _ hct]
        exact hcanon

/-! ## C2 infrastructure: staging-discipline preservation lemmas -/

theorem stagedP_write_temp (tt : Tr) (w : Content)
    (hP : ∀ pr ∈ tt.hist, StagedP pr) :
    ∀ pr ∈ (tt.write (canonicalPath ++ ".restore.tmp") w).hist, StagedP pr := by
  intro pr hpr
  rcases List.mem_append.mp hpr with h | h
  · exact hP pr h
  · rw [List.mem_singleton] at h
    subst h
    constructor
    · intro cw hw
      injection hw with h1 h2
      exact absurd h1 (by decide)
    · intro hw
      cases hw

theorem stagedP_write_rbtmp (tt : Tr) (w : Content)
    (hP : ∀ pr ∈ tt.hist, StagedP pr) :
    ∀ pr ∈ (tt.write (canonicalPath ++ ".rollback.tmp") w).hist, StagedP pr := by
  intro pr hpr
  rcases List.mem_append.mp hpr with h | h
  · exact hP pr h
  · rw [List.mem_singleton] at h
    subst h
    constructor
    · intro cw hw
      injection hw with h1 h2
      exact absurd h1 (by decide)
    · intro hw
      cases hw

theorem stagedP_write_canonical (tt : Tr) (w : Content)
    (hP : ∀ pr ∈ tt.hist, StagedP pr)
    (htmp : tt.fs.get (canonicalPath ++ ".restore.tmp") = some w ∨
      tt.fs.get (canonicalPath ++ ".rollback.tmp") = some w) :
    ∀ pr ∈ (tt.write canonicalPath w).hist, StagedP pr := by
  intro pr hpr
  rcases List.mem_append.mp hpr with h | h
  · exact hP pr h
  · rw [List.mem_singleton] at h
    subst h
    constructor
    · intro cw hw
      injection hw with h1 h2
      subst h2
      rcases htmp with ht | ht
      · left
        show (tt.fs.set canonicalPath w).get (canonicalPath ++ ".restore.tmp") = some w
        rw [fs_get_set_ne _ _ _ _ (by decide)]
        exact ht
      · right
        show (tt.fs.set canonicalPath w).get (canonicalPath ++ ".rollback.tmp") = some w
        rw [fs_get_set_ne _ _ _ _ (by decide)]
        exact ht
    · intro hw
      cases hw

theorem stagedP_del (tt : Tr) (q : Path) (hq : q ≠ canonicalPath)
    (hP : ∀ pr ∈ tt.hist, StagedP pr) :
    ∀ pr ∈ (tt.del q).hist, StagedP pr := by
  intro pr hpr
  rcases List.mem_append.mp hpr with h | h
  · exact hP pr h
  · rw [List.mem_singleton] at h
    subst h
    constructor
    · intro cw hw
      cases hw
    · intro hw
      injection hw with h1
      exact hq h1

theorem stagedP_tail (tt : Tr)
    (hP : ∀ pr ∈ tt.hist, StagedP pr) :
    ∀ pr ∈ (swapSuccessTail canonicalPath canonicalPath tt).1.hist, StagedP pr := by
  unfold swapSuccessTail
  rw [if_pos rfl]
  exact stagedP_del _ _ (by decide) (stagedP_del _ _ (by decide) hP)

theorem stagedP_catch (rb1 rb2 rb3 : Bool) (snap : Option Path) (tc : Tr) (v : Content)
    (hcc : tc.fs.get canonicalPath = some v)
    (hP : ∀ pr ∈ tc.hist, StagedP pr) :
    ∀ pr ∈ (catchPath rb1 rb2 rb3 snap tc).1.hist, StagedP pr := by
  cases snap with
  | none => exact hP
  | some sp =>
    have hendsC : strEnds canonicalPath ".db" = true := by decide
    unfold catchPath rollbackRun
    rw [resolve_of_canonical hcc]
    simp only [hendsC, if_true]
    cases hg : tc.fs.get sp with
    | none => exact hP
    | some w =>
      cases rb1 with
      | false => exact hP
      | true =>
        have hP1 := stagedP_write_rbtmp tc w hP
        have htmp : (tc.write (canonicalPath ++ ".rollback.tmp") w).fs.get
            (canonicalPath ++ ".rollback.tmp") = some w := by
          show (tc.fs.set (canonicalPath ++ ".rollback.tmp") w).get _ = some w
          exact fs_get_set_self _ _ _
        have hP2 := stagedP_write_canonical _ w hP1 (Or.inr htmp)
        have hP3 := stagedP_del ((tc.write (canonicalPath ++ ".rollback.tmp") w).write
          canonicalPath w) (canonicalPath ++ ".rollback.tmp") (by decide) hP2
        cases rb2 with
        | true => simpa using hP3
        | false =>
          cases rb3 with
          | true => simpa using hP3
          | false => simpa using hP1

theorem snapInv_entries_staged (fs0 : FS) (t : Tr)
    (hInv : SnapInv fs0 [] t) :
    ∀ pr ∈ t.hist, StagedP pr := by
  obtain ⟨hframe, hb, hhist, hmem⟩ := hInv
  rw [hhist]
  intro pr hpr
  rw [List.nil_append] at hpr
  obtain ⟨⟨x, cx, hshape⟩, hcan⟩ := hmem pr hpr
  constructor
  · intro cw hw
    rw [hshape] at hw
    injection hw with h1 h2
    exact absurd h1.symm (canonical_not_backup x)
  · rw [hshape]
    intro hcon
    cases hcon

theorem restore_stagingA
    (chk : FS → FS) (ts : String)
    (bareOk destOk walOk shmOk stageOk moveOk fbOk delTmpOk rbCopyOk rbMoveOk rbFbOk : Bool)
    (fs0 : FS) (orig c : Content)
    (hchk : ∀ g, chk g = g)
    (hcanon : fs0.get canonicalPath = some orig) :
    ∀ pr ∈ (handleRestoreLocal chk ts bareOk destOk walOk shmOk (some c) stageOk moveOk fbOk
        delTmpOk rbCopyOk rbMoveOk rbFbOk fs0).t.hist, StagedP pr := by
  have hchkT0 : Tr.chk ⟨fs0, []⟩ chk = ⟨fs0, []⟩ := by
    show (⟨chk fs0, []⟩ : Tr) = ⟨fs0, []⟩
    rw [hchk fs0]
  have hendsC : strEnds canonicalPath ".db" = true := by decide
  cases destOk with
  | true =>
    obtain ⟨tb, heqB, hInv, hdest⟩ :=
      backupRun_canonical chk ts bareOk walOk shmOk ⟨fs0, []⟩ orig hcanon hchk
    have htbc : tb.fs.get canonicalPath = some orig := by
      rw [hInv.1 canonicalPath canonical_not_backup]
      exact hcanon
    have hchkTb : Tr.chk tb chk = tb := by
      show (⟨chk tb.fs, tb.hist⟩ : Tr) = tb
      rw [hchk tb.fs]
    have hres3 := resolve_of_canonical htbc
    have htbP : ∀ pr ∈ tb.hist, StagedP pr := snapInv_entries_staged fs0 tb hInv
    unfold handleRestoreLocal
    simp only [hchkT0, heqB, Option.map, hchkTb, hres3, hendsC, if_true]
    cases stageOk with
    | false =>
      simp only [Bool.false_eq_true, if_false]
      exact stagedP_catch _ _ _ _ _ orig htbc htbP
    | true =>
      simp only [if_true]
      have hP4 := stagedP_write_temp tb c htbP
      have ht4tmp : (tb.write (canonicalPath ++ ".restore.tmp") c).fs.get
          (canonicalPath ++ ".restore.tmp") = some c := by
        show (tb.fs.set _ c).get _ = some c
        exact fs_get_set_self _ _ _
      have ht4c : (tb.write (canonicalPath ++ ".restore.tmp") c).fs.get canonicalPath =
          some orig := by
        show (tb.fs.set _ c).get _ = some orig
        rw [fs_get_set_ne _ _ _ _ (by decide)]
        exact htbc
      cases moveOk with
      | true =>
        simp only [if_true]
        have hP5 := stagedP_write_canonical _ c hP4 (Or.inl ht4tmp)
        have hP6 := stagedP_del _ (canonicalPath ++ ".restore.tmp") (by decide) hP5
        exact stagedP_tail _ hP6
      | false =>
        simp only [Bool.false_eq_true, if_false]
        cases fbOk with
        | true =>
          simp only [if_true]
          have hP5 := stagedP_write_canonical _ c hP4 (Or.inl ht4tmp)
          cases delTmpOk with
          | true =>
            simp only [if_true]
            exact stagedP_tail _ (stagedP_del _ _ (by decide) hP5)
          | false =>
            simp only [Bool.false_eq_true, if_false]
            have ht5c : ((tb.write (canonicalPath ++ ".restore.tmp") c).write canonicalPath
                c).fs.get canonicalPath = some c := by
              show ((tb.fs.set _ c).set canonicalPath c).get canonicalPath = some c
              exact fs_get_set_self _ _ _
            exact stagedP_catch _ _ _ _ _ c ht5c hP5
        | false =>
          simp only [Bool.false_eq_true, if_false]
          exact stagedP_catch _ _ _ _ _ orig ht4c hP4
  | false =>
    have heqF := backupRun_canonical_destFail chk ts bareOk walOk shmOk ⟨fs0, []⟩ orig
      hcanon hchk
    have hres3 := resolve_of_canonical hcanon
    have htbP : ∀ pr ∈ (⟨fs0, []⟩ : Tr).hist, StagedP pr := by
      intro pr hpr
      cases hpr
    unfold handleRestoreLocal
    simp only [hchkT0, heqF, Option.map, hres3, hendsC, if_true]
    cases stageOk with
    | false =>
      simp only [Bool.false_eq_true, if_false]
      exact stagedP_catch _ _ _ _ _ orig hcanon htbP
    | true =>
      simp only [if_true]
      have hP4 := stagedP_write_temp ⟨fs0, []⟩ c htbP
      have ht4tmp : ((⟨fs0, []⟩ : Tr).write (canonicalPath ++ ".restore.tmp") c).fs.get
          (canonicalPath ++ ".restore.tmp") = some c := by
        show (fs0.set _ c).get _ = some c
        exact fs_get_set_self _ _ _
      have ht4c : ((⟨fs0, []⟩ : Tr).write (canonicalPath ++ ".restore.tmp") c).fs.get
          canonicalPath = some orig := by
        show (fs0.set _ c).get _ = some orig
        rw [fs_get_set_ne _ _ _ _ (by decide)]
        exact hcanon
      cases moveOk with
      | true =>
        simp only [if_true]
        have hP5 := stagedP_write_canonical _ c hP4 (Or.inl ht4tmp)
        have hP6 := stagedP_del _ (canonicalPath ++ ".restore.tmp") (by decide) hP5
        exact stagedP_tail _ hP6
      | false =>
        simp only [Bool.false_eq_true, if_false]
        cases fbOk with
        | true =>
          simp only [if_true]
          have hP5 := stagedP_write_canonical _ c hP4 (Or.inl ht4tmp)
          cases delTmpOk with
          | true =>
            simp only [if_true]
            exact stagedP_tail _ (stagedP_del _ _ (by decide) hP5)
          | false =>
            simp only [Bool.false_eq_true, if_false]
            have ht5c : (((⟨fs0, []⟩ : Tr).write (canonicalPath ++ ".restore.tmp") c).write
                canonicalPath c).fs.get canonicalPath = some c := by
              show ((fs0.set _ c).set canonicalPath c).get canonicalPath = some c
              exact fs_get_set_self _ _ _
            exact stagedP_catch _ _ _ _ _ c ht5c hP5
        | false =>
          simp only [Bool.false_eq_true, if_false]
          exact stagedP_catch _ _ _ _ _ orig ht4c hP4

/-! ## C2 infrastructure: legacy-bare-file discipline lemmas -/

theorem ne_of_append_suffix (x s y : String) (h : strEnds y s = false) : x ++ s ≠ y := by
  intro he
  have h2 : strEnds y s = true := by
    rw [← he]
    exact strEnds_append x s
  rw [h] at h2
  cases h2

theorem bareQ_write (tt : Tr) (p : Path) (w c : Content)
    (hQ : ∀ pr ∈ tt.hist, BareDelQ c pr) :
    ∀ pr ∈ (tt.write p w).hist, BareDelQ c pr := by
  intro pr hpr
  rcases List.mem_append.mp hpr with h | h
  · exact hQ pr h
  · rw [List.mem_singleton] at h
    subst h
    intro hw
    cases hw

theorem bareQ_del_ne (tt : Tr) (q : Path) (c : Content) (hq : q ≠ barePath)
    (hQ : ∀ pr ∈ tt.hist, BareDelQ c pr) :
    ∀ pr ∈ (tt.del q).hist, BareDelQ c pr := by
  intro pr hpr
  rcases List.mem_append.mp hpr with h | h
  · exact hQ pr h
  · rw [List.mem_singleton] at h
    subst h
    intro hw
    injection hw with h1
    exact absurd h1 hq

theorem bareQ_del_bare (tt : Tr) (c : Content)
    (hst : tt.fs.get (barePath ++ ".db") = some c)
    (hQ : ∀ pr ∈ tt.hist, BareDelQ c pr) :
    ∀ pr ∈ (tt.del barePath).hist, BareDelQ c pr := by
  intro pr hpr
  rcases List.mem_append.mp hpr with h | h
  · exact hQ pr h
  · rw [List.mem_singleton] at h
    subst h
    intro hw
    show (tt.fs.del barePath).get (barePath ++ ".db") = some c
    rw [fs_get_del_ne _ _ _ (by decide)]
    exact hst

theorem bareQ_catch (rb1 rb2 rb3 : Bool) (snap : Option Path) (tc : Tr) (c : Content)
    (hQ : ∀ pr ∈ tc.hist, BareDelQ c pr) :
    ∀ pr ∈ (catchPath rb1 rb2 rb3 snap tc).1.hist, BareDelQ c pr := by
  cases snap with
  | none => exact hQ
  | some sp =>
    unfold catchPath rollbackRun
    cases hr : resolveDatabasePath tc.fs with
    | none =>
      simp only
      cases hg : tc.fs.get sp with
      | none => exact hQ
      | some w =>
        cases rb1 with
        | false => exact hQ
        | true =>
          have hQ1 := bareQ_write tc
            ((SQLITE_DIR ++ "debitmanager.db") ++ ".rollback.tmp") w c hQ
          have hQ2 := bareQ_write _ (SQLITE_DIR ++ "debitmanager.db") w c hQ1
          have hQ3 := bareQ_del_ne _
            ((SQLITE_DIR ++ "debitmanager.db") ++ ".rollback.tmp") c
            (ne_of_append_suffix _ ".rollback.tmp" _ (by decide)) hQ2
          cases rb2 with
          | true => simpa using hQ3
          | false =>
            cases rb3 with
            | true => simpa using hQ3
            | false => simpa using hQ1
    | some cur =>
      simp only
      cases hg : tc.fs.get sp with
      | none => exact hQ
      | some w =>
        cases rb1 with
        | false => exact hQ
        | true =>
          have hQ1 := bareQ_write tc
            ((if strEnds cur ".db" = true then cur else cur ++ ".db") ++ ".rollback.tmp")
            w c hQ
          have hQ2 := bareQ_write _
            (if strEnds cur ".db" = true then cur else cur ++ ".db") w c hQ1
          have hQ3 := bareQ_del_ne _
            ((if strEnds cur ".db" = true then cur else cur ++ ".db") ++ ".rollback.tmp") c
            (ne_of_append_suffix _ ".rollback.tmp" _ (by decide)) hQ2
          cases rb2 with
          | true => simpa using hQ3
          | false =>
            cases rb3 with
            | true => simpa using hQ3
            | false => simpa using hQ1

theorem bareQ_tailB (tt : Tr) (c : Content)
    (hst : tt.fs.get (barePath ++ ".db") = some c)
    (hQ : ∀ pr ∈ tt.hist, BareDelQ c pr) :
    ∀ pr ∈ (swapSuccessTail barePath (barePath ++ ".db") tt).1.hist, BareDelQ c pr := by
  unfold swapSuccessTail
  rw [if_neg (by decide)]
  exact bareQ_del_ne _ _ c (by decide)
    (bareQ_del_ne _ _ c (by decide) (bareQ_del_bare tt c hst hQ))


/-- In the bare-file starting scenario (only the legacy `SQLite/debitmanager`
file exists, with the snapshot's bare-migration copy failing), every recorded
mutation of the local restore satisfies the legacy-file discipline: the bare
path is only ever deleted in states where its canonical `.db` replacement
already holds the restored bytes. -/
theorem restore_stagingB
    (chk : FS → FS) (ts : String)
    (destOk walOk shmOk stageOk moveOk fbOk delTmpOk rbCopyOk rbMoveOk rbFbOk : Bool)
    (b c : Content) (hchk : ∀ g, chk g = g) :
    ∀ pr ∈ (handleRestoreLocal chk ts false destOk walOk shmOk (some c) stageOk moveOk fbOk
        delTmpOk rbCopyOk rbMoveOk rbFbOk ⟨[(barePath, b)]⟩).t.hist, BareDelQ c pr := by
  have e1 : ((barePath == canonicalPath) : Bool) = false := by decide
  have e3 : strEnds barePath ".db" = false := by decide
  have e4 : ((barePath == barePath ++ ".db") : Bool) = false := by decide
  have hget_bare : FS.get (⟨[(barePath, b)]⟩ : FS) barePath = some b := by
    unfold FS.get
    simp [List.find?_cons]
  have hget_canon : FS.get (⟨[(barePath, b)]⟩ : FS) canonicalPath = none := by
    unfold FS.get
    simp [List.find?_cons, e1]
  have hresB : resolveDatabasePath (⟨[(barePath, b)]⟩ : FS) = some barePath := by
    have hx1 : FS.fileExists (⟨[(barePath, b)]⟩ : FS) (SQLITE_DIR ++ "debitmanager.db") =
        false := by
      unfold FS.fileExists
      rw [show SQLITE_DIR ++ "debitmanager.db" = canonicalPath from rfl, hget_canon]
      rfl
    have hx2 : FS.fileExists (⟨[(barePath, b)]⟩ : FS) (SQLITE_DIR ++ "debitmanager") =
        true := by
      unfold FS.fileExists
      rw [show SQLITE_DIR ++ "debitmanager" = barePath from rfl, hget_bare]
      rfl
    unfold resolveDatabasePath DB_CANDIDATES
    simp [List.find?_cons, hx1, hx2]
    rfl
  have hresB2 : resolveDatabasePath (⟨⟨[(barePath, b)]⟩, []⟩ : Tr).fs = some barePath := hresB
  have hchkB0 : Tr.chk ⟨⟨[(barePath, b)]⟩, []⟩ chk = ⟨⟨[(barePath, b)]⟩, []⟩ := by
    show (⟨chk ⟨[(barePath, b)]⟩, []⟩ : Tr) = _
    rw [hchk]
  have hpickB : backupSourcePick (⟨[(barePath, b)]⟩ : FS) barePath = barePath := by
    have hx3 : FS.fileExists (⟨[(barePath, b)]⟩ : FS) (barePath ++ ".db") = false := by
      unfold FS.fileExists FS.get
      simp [List.find?_cons, e4]
    unfold backupSourcePick
    rw [if_neg (by simp [e3]), if_neg (by simp [hx3])]
  have hbareB : bareCopyStep false (⟨⟨[(barePath, b)]⟩, []⟩ : Tr) barePath =
      (barePath, (⟨⟨[(barePath, b)]⟩, []⟩ : Tr)) := by
    unfold bareCopyStep
    rw [if_neg (by simp [e3])]
    rw [show (⟨⟨[(barePath, b)]⟩, []⟩ : Tr).fs.get barePath = some b from hget_bare]
    simp
  have hQnil : ∀ pr ∈ (⟨⟨[(barePath, b)]⟩, []⟩ : Tr).hist, BareDelQ c pr := by
    intro pr hpr
    cases hpr
  have htempne : barePath ++ ".db" ++ ".restore.tmp" ≠ barePath :=
    ne_of_append_suffix _ ".restore.tmp" _ (by decide)
  cases destOk with
  | true =>
    have hwal0 : ((⟨⟨[(barePath, b)]⟩, []⟩ : Tr).write
        (BACKUP_DIR ++ ("debitmanager-" ++ (ts ++ ".db"))) b).fs.get (barePath ++ "-wal") =
        none := by
      show ((⟨[(barePath, b)]⟩ : FS).set
        (BACKUP_DIR ++ ("debitmanager-" ++ (ts ++ ".db"))) b).get (barePath ++ "-wal") = none
      rw [fs_get_set_ne _ _ _ _ (by
        rw [show barePath ++ "-wal" = SQLITE_DIR ++ ("debitmanager" ++ "-wal") from by decide]
        exact sqlite_ne_backup _ _)]
      unfold FS.get
      simp [List.find?_cons, show ((barePath == barePath ++ "-wal") : Bool) = false from
        by decide]
    have hshm0 : ((⟨⟨[(barePath, b)]⟩, []⟩ : Tr).write
        (BACKUP_DIR ++ ("debitmanager-" ++ (ts ++ ".db"))) b).fs.get (barePath ++ "-shm") =
        none := by
      show ((⟨[(barePath, b)]⟩ : FS).set
        (BACKUP_DIR ++ ("debitmanager-" ++ (ts ++ ".db"))) b).get (barePath ++ "-shm") = none
      rw [fs_get_set_ne _ _ _ _ (by
        rw [show barePath ++ "-shm" = SQLITE_DIR ++ ("debitmanager" ++ "-shm") from by decide]
        exact sqlite_ne_backup _ _)]
      unfold FS.get
      simp [List.find?_cons, show ((barePath == barePath ++ "-shm") : Bool) = false from
        by decide]
    have hside1 : sidecarStep walOk ((⟨⟨[(barePath, b)]⟩, []⟩ : Tr).write
        (BACKUP_DIR ++ ("debitmanager-" ++ (ts ++ ".db"))) b) (barePath ++ "-wal")
        ((BACKUP_DIR ++ ("debitmanager-" ++ (ts ++ ".db"))) ++ "-wal") =
        (⟨⟨[(barePath, b)]⟩, []⟩ : Tr).write
          (BACKUP_DIR ++ ("debitmanager-" ++ (ts ++ ".db"))) b := by
      unfold sidecarStep
      rw [hwal0]
    have hside2 : sidecarStep shmOk ((⟨⟨[(barePath, b)]⟩, []⟩ : Tr).write
        (BACKUP_DIR ++ ("debitmanager-" ++ (ts ++ ".db"))) b) (barePath ++ "-shm")
        ((BACKUP_DIR ++ ("debitmanager-" ++ (ts ++ ".db"))) ++ "-shm") =
        (⟨⟨[(barePath, b)]⟩, []⟩ : Tr).write
          (BACKUP_DIR ++ ("debitmanager-" ++ (ts ++ ".db"))) b := by
      unfold sidecarStep
      rw [hshm0]
    have heqBB : backupRun chk ts false true walOk shmOk ⟨⟨[(barePath, b)]⟩, []⟩ =
        ((⟨⟨[(barePath, b)]⟩, []⟩ : Tr).write
            (BACKUP_DIR ++ ("debitmanager-" ++ (ts ++ ".db"))) b,
          some (BACKUP_DIR ++ ("debitmanager-" ++ (ts ++ ".db")), barePath)) := by
      unfold backupRun
      rw [hresB2]
      simp only
      rw [hchkB0]
      simp only [hpickB, hbareB]
      rw [show (⟨⟨[(barePath, b)]⟩, []⟩ : Tr).fs.get barePath = some b from hget_bare]
      simp [hside1, hside2]
    have hchkB3 : Tr.chk ((⟨⟨[(barePath, b)]⟩, []⟩ : Tr).write
        (BACKUP_DIR ++ ("debitmanager-" ++ (ts ++ ".db"))) b) chk =
        (⟨⟨[(barePath, b)]⟩, []⟩ : Tr).write
          (BACKUP_DIR ++ ("debitmanager-" ++ (ts ++ ".db"))) b := by
      show (⟨chk _, _⟩ : Tr) = _
      rw [hchk]
    have hres2 : resolveDatabasePath ((⟨⟨[(barePath, b)]⟩, []⟩ : Tr).write
        (BACKUP_DIR ++ ("debitmanager-" ++ (ts ++ ".db"))) b).fs = some barePath := by
      show resolveDatabasePath ((⟨[(barePath, b)]⟩ : FS).set
        (BACKUP_DIR ++ ("debitmanager-" ++ (ts ++ ".db"))) b) = some barePath
      have hx1 : ((⟨[(barePath, b)]⟩ : FS).set
          (BACKUP_DIR ++ ("debitmanager-" ++ (ts ++ ".db"))) b).fileExists
          (SQLITE_DIR ++ "debitmanager.db") = false := by
        unfold FS.fileExists
        rw [show SQLITE_DIR ++ "debitmanager.db" = canonicalPath from rfl,
          fs_get_set_ne _ _ _ _ (canonical_not_backup _), hget_canon]
        rfl
      have hx2 : ((⟨[(barePath, b)]⟩ : FS).set
          (BACKUP_DIR ++ ("debitmanager-" ++ (ts ++ ".db"))) b).fileExists
          (SQLITE_DIR ++ "debitmanager") = true := by
        unfold FS.fileExists
        rw [show SQLITE_DIR ++ "debitmanager" = barePath from rfl,
          fs_get_set_ne _ _ _ _ (show barePath ≠
            BACKUP_DIR ++ ("debitmanager-" ++ (ts ++ ".db")) from
            sqlite_ne_backup "debitmanager" _), hget_bare]
        rfl
      unfold resolveDatabasePath DB_CANDIDATES
      simp [List.find?_cons, hx1, hx2]
      rfl
    have hQ3B := bareQ_write (⟨⟨[(barePath, b)]⟩, []⟩ : Tr)
      (BACKUP_DIR ++ ("debitmanager-" ++ (ts ++ ".db"))) b c hQnil
    unfold handleRestoreLocal
    simp only [hchkB0, heqBB, Option.map, hchkB3, hres2, e3, Bool.false_eq_true, if_false]
    cases stageOk with
    | false =>
      exact bareQ_catch _ _ _ _ _ c hQ3B
    | true =>
      simp only [if_true]
      have hQ4 := bareQ_write _ (barePath ++ ".db" ++ ".restore.tmp") c c hQ3B
      cases moveOk with
      | true =>
        simp only [if_true]
        have hQ5 := bareQ_write _ (barePath ++ ".db") c c hQ4
        have hQ6 := bareQ_del_ne _ (barePath ++ ".db" ++ ".restore.tmp") c htempne hQ5
        have hst : (((((⟨⟨[(barePath, b)]⟩, []⟩ : Tr).write
            (BACKUP_DIR ++ ("debitmanager-" ++ (ts ++ ".db"))) b).write
            (barePath ++ ".db" ++ ".restore.tmp") c).write (barePath ++ ".db") c).del
            (barePath ++ ".db" ++ ".restore.tmp")).fs.get (barePath ++ ".db") = some c := by
          show (((((⟨[(barePath, b)]⟩ : FS).set
            (BACKUP_DIR ++ ("debitmanager-" ++ (ts ++ ".db"))) b).set
            (barePath ++ ".db" ++ ".restore.tmp") c).set (barePath ++ ".db") c).del
            (barePath ++ ".db" ++ ".restore.tmp")).get (barePath ++ ".db") = some c
          rw [fs_get_del_ne _ _ _ (by decide)]
          exact fs_get_set_self _ _ _
        exact bareQ_tailB _ c hst hQ6
      | false =>
        simp only [Bool.false_eq_true, if_false]
        cases fbOk with
        | true =>
          simp only [if_true]
          have hQ5 := bareQ_write _ (barePath ++ ".db") c c hQ4
          cases delTmpOk with
          | true =>
            simp only [if_true]
            have hQ6 := bareQ_del_ne _ (barePath ++ ".db" ++ ".restore.tmp") c htempne hQ5
            have hst : (((((⟨⟨[(barePath, b)]⟩, []⟩ : Tr).write
                (BACKUP_DIR ++ ("debitmanager-" ++ (ts ++ ".db"))) b).write
                (barePath ++ ".db" ++ ".restore.tmp") c).write (barePath ++ ".db") c).del
                (barePath ++ ".db" ++ ".restore.tmp")).fs.get (barePath ++ ".db") =
                some c := by
              show (((((⟨[(barePath, b)]⟩ : FS).set
                (BACKUP_DIR ++ ("debitmanager-" ++ (ts ++ ".db"))) b).set
                (barePath ++ ".db" ++ ".restore.tmp") c).set (barePath ++ ".db") c).del
                (barePath ++ ".db" ++ ".restore.tmp")).get (barePath ++ ".db") = some c
              rw [fs_get_del_ne _ _ _ (by decide)]
              exact fs_get_set_self _ _ _
            exact bareQ_tailB _ c hst hQ6
          | false =>
            simp only [Bool.false_eq_true, if_false]
            exact bareQ_catch _ _ _ _ _ c hQ5
        | false =>
          simp only [Bool.false_eq_true, if_false]
          exact bareQ_catch _ _ _ _ _ c hQ4
  | false =>
    have heqFB : backupRun chk ts false false walOk shmOk ⟨⟨[(barePath, b)]⟩, []⟩ =
        (⟨⟨[(barePath, b)]⟩, []⟩, none) := by
      unfold backupRun
      rw [hresB2]
      simp only
      rw [hchkB0]
      simp only [hpickB, hbareB]
      rw [show (⟨⟨[(barePath, b)]⟩, []⟩ : Tr).fs.get barePath = some b from hget_bare]
      simp
    unfold handleRestoreLocal
    simp only [hchkB0, heqFB, Option.map, hresB2, hresB, e3, Bool.false_eq_true, if_false]
    cases stageOk with
    | false =>
      exact bareQ_catch _ _ _ _ _ c hQnil
    | true =>
      simp only [if_true]
      have hQ4 := bareQ_write _ (barePath ++ ".db" ++ ".restore.tmp") c c hQnil
      cases moveOk with
      | true =>
        simp only [if_true]
        have hQ5 := bareQ_write _ (barePath ++ ".db") c c hQ4
        have hQ6 := bareQ_del_ne _ (barePath ++ ".db" ++ ".restore.tmp") c htempne hQ5
        have hst : ((((⟨⟨[(barePath, b)]⟩, []⟩ : Tr).write
            (barePath ++ ".db" ++ ".restore.tmp") c).write (barePath ++ ".db") c).del
            (barePath ++ ".db" ++ ".restore.tmp")).fs.get (barePath ++ ".db") = some c := by
          show ((((⟨[(barePath, b)]⟩ : FS).set
            (barePath ++ ".db" ++ ".restore.tmp") c).set (barePath ++ ".db") c).del
            (barePath ++ ".db" ++ ".restore.tmp")).get (barePath ++ ".db") = some c
          rw [fs_get_del_ne _ _ _ (by decide)]
          exact fs_get_set_self _ _ _
        exact bareQ_tailB _ c hst hQ6
      | false =>
        simp only [Bool.false_eq_true, if_false]
        cases fbOk with
        | true =>
          simp only [if_true]
          have hQ5 := bareQ_write _ (barePath ++ ".db") c c hQ4
          cases delTmpOk with
          | true =>
            simp only [if_true]
            have hQ6 := bareQ_del_ne _ (barePath ++ ".db" ++ ".restore.tmp") c htempne hQ5
            have hst : ((((⟨⟨[(barePath, b)]⟩, []⟩ : Tr).write
                (barePath ++ ".db" ++ ".restore.tmp") c).write (barePath ++ ".db") c).del
                (barePath ++ ".db" ++ ".restore.tmp")).fs.get (barePath ++ ".db") =
                some c := by
              show ((((⟨[(barePath, b)]⟩ : FS).set
                (barePath ++ ".db" ++ ".restore.tmp") c).set (barePath ++ ".db") c).del
                (barePath ++ ".db" ++ ".restore.tmp")).get (barePath ++ ".db") = some c
              rw [fs_get_del_ne _ _ _ (by decide)]
              exact fs_get_set_self _ _ _
            exact bareQ_tailB _ c hst hQ6
          | false =>
            simp only [Bool.false_eq_true, if_false]
            exact bareQ_catch _ _ _ _ _ c hQ5
        | false =>
          simp only [Bool.false_eq_true, if_false]
          exact bareQ_catch _ _ _ _ _ c hQ4

/-- C2: during a local-file restore the inbound bytes are always staged into
a temporary sibling of the canonical path before any write to the canonical
path itself (every recorded canonical-path write finds its bytes already
present at the `.restore.tmp` or `.rollback.tmp` sibling), the canonical
database file is never deleted, and in the legacy-bare-file scenario the
bare file is removed only in states where the canonical `.db` replacement
already holds the restored bytes. -/
theorem restore_staging_discipline
    (chk : FS → FS) (ts : String)
    (bareOk destOk walOk shmOk stageOk moveOk fbOk delTmpOk rbCopyOk rbMoveOk rbFbOk : Bool)
    (fs0 : FS) (orig b c : Content)
    (hchk : ∀ g, chk g = g) :
    (fs0.get canonicalPath = some orig →
      ∀ pr ∈ (handleRestoreLocal chk ts bareOk destOk walOk shmOk (some c) stageOk moveOk fbOk
          delTmpOk rbCopyOk rbMoveOk rbFbOk fs0).t.hist, StagedP pr) ∧
    (∀ pr ∈ (handleRestoreLocal chk ts false destOk walOk shmOk (some c) stageOk moveOk fbOk
        delTmpOk rbCopyOk rbMoveOk rbFbOk ⟨[(barePath, b)]⟩).t.hist, BareDelQ c pr) :=
  ⟨fun hcanon => restore_stagingA chk ts bareOk destOk walOk shmOk stageOk moveOk fbOk
      delTmpOk rbCopyOk rbMoveOk rbFbOk fs0 orig c hchk hcanon,
    restore_stagingB chk ts destOk walOk shmOk stageOk moveOk fbOk delTmpOk rbCopyOk
      rbMoveOk rbFbOk b c hchk⟩

theorem restore_staging_discipline_witness :
    (((⟨[(canonicalPath, 5)]⟩ : FS).get canonicalPath = some 5 →
      ∀ pr ∈ (handleRestoreLocal id "TS" true true true true (some 7) true true true
          true true true true ⟨[(canonicalPath, 5)]⟩).t.hist, StagedP pr) ∧
    (∀ pr ∈ (handleRestoreLocal id "TS" false true true true (some 7) true true true
        true true true true ⟨[(barePath, 3)]⟩).t.hist, BareDelQ 7 pr)) :=
  restore_staging_discipline id "TS" true true true true true true true true true true
    true ⟨[(canonicalPath, 5)]⟩ 5 3 7 (fun g => rfl)

theorem restore_rollback_on_failure_witness :
    ((handleRestoreLocal id "T" true true true true (some 7) false true true true
        true true true ⟨[(canonicalPath, 5)]⟩).result = RestoreResult.failedRolledBack ∧
      (handleRestoreLocal id "T" true true true true (some 7) false true true true
        true true true ⟨[(canonicalPath, 5)]⟩).t.fs.get canonicalPath = some 5) ∧
    ((handleRestoreLocal id "T" true false true true (some 7) false true true true
        true true true ⟨[(canonicalPath, 5)]⟩).result = RestoreResult.failedNoSnapshot ∧
      (handleRestoreLocal id "T" true false true true (some 7) false true true true
        true true true ⟨[(canonicalPath, 5)]⟩).t.fs.get canonicalPath = some 5) :=
  restore_rollback_on_failure id "T" true true true false true true true true
    ⟨[(canonicalPath, 5)]⟩ 5 7 (fun g => rfl) (by decide) (Or.inl rfl)

end DebitManager
